import Mathlib

/-!
Shallow embedding of the niri-tools scratchpad daemon
(`src/config/niri/niri_tools/daemon/{state,config,scratchpad,server}.py`)
and proofs about its specification claims.

Python `dict`s are modelled as insertion-ordered association lists
(`List (k × v)`), which is exactly the observable behaviour of CPython
dicts: assignment to an existing key updates in place, assignment to a
new key appends, `pop` removes.  Python `set`s (only `pending_spawns`)
are modelled as lists of distinct elements; the iteration order of the
model list stands for the set's iteration order.  `time.time()` floats
are modelled as rationals supplied explicitly as a `now` argument.
-/

namespace NiriTools

/-- Python dict lookup `d.get(k)` over an insertion-ordered association list. -/
def dictGet {α β : Type} [BEq α] (l : List (α × β)) (k : α) : Option β :=
  match l with
  | [] => none
  | (k', v) :: t => if k' == k then some v else dictGet t k

/-- Python dict assignment `d[k] = v`: update in place if the key is present,
append otherwise. -/
def dictSet {α β : Type} [BEq α] (l : List (α × β)) (k : α) (v : β) : List (α × β) :=
  match l with
  | [] => [(k, v)]
  | (k', v') :: t => if k' == k then (k', v) :: t else (k', v') :: dictSet t k v

/-- Python dict `d.pop(k, None)`: the removed value (if any) and the remaining dict. -/
def dictPop {α β : Type} [BEq α] (l : List (α × β)) (k : α) : Option β × List (α × β) :=
  match l with
  | [] => (none, [])
  | (k', v) :: t =>
    if k' == k then (some v, t)
    else
      let r := dictPop t k
      (r.1, (k', v) :: r.2)

/-- Mutation of the value stored under a key (`d[k].field = v` in the source);
keys are unique in every dict the daemon builds, so mapping over all
matching keys coincides with the in-place mutation. -/
def dictMod {α β : Type} [BEq α] (l : List (α × β)) (k : α) (f : β → β) : List (α × β) :=
  l.map fun p => if p.1 == k then (p.1, f p.2) else p

/-- Python truthiness of an optional string (`if s:`): `None` and `""` are falsy. -/
def truthyS : Option String → Bool
  | none => false
  | some s => s != ""

/-- Python `int()` applied to a float value: truncation toward zero,
modelled on exact rationals. -/
def pyTrunc (q : ℚ) : ℤ :=
  Int.tdiv q.num q.den

/-- Python `max(a, b)` on integers. -/
def pyMax (a b : ℤ) : ℤ :=
  if a < b then b else a

end NiriTools

namespace NiriTools

/-- The value of `common.SCRATCHPAD_WORKSPACE`, the dedicated hidden workspace name. -/
def SCRATCHPAD_WORKSPACE : String := "sp"

/-- `state.WindowInfo`. -/
structure WindowInfo where
  id : ℤ
  app_id : String := ""
  title : String := ""
  workspace_id : Option ℤ := none
  is_focused : Bool := false
  is_floating : Bool := false
deriving DecidableEq, Repr

/-- `state.WorkspaceInfo`. -/
structure WorkspaceInfo where
  id : ℤ
  idx : ℤ
  output : String := ""
  is_active : Bool := false
deriving DecidableEq, Repr

/-- `state.OutputInfo`. -/
structure OutputInfo where
  name : String
  width : ℤ := 0
  height : ℤ := 0
deriving DecidableEq, Repr

/-- `state.ScratchpadState`: runtime state for one scratchpad. -/
structure ScratchpadState where
  window_id : Option ℤ := none
  visible : Bool := false
  last_used : ℚ := 0
deriving DecidableEq, Repr

/-- A freshly constructed `ScratchpadState()` with the dataclass defaults. -/
def ScratchpadState.init : ScratchpadState := ⟨none, false, 0⟩

/-- Size / coordinate values of `config.ScratchpadConfig`.  The source stores
these as raw strings such as `"50%"` or `"120"` and decides by the `"%"`
suffix at every use site; the structured value is that parse, performed once. -/
inductive SizeVal where
  | pct (p : ℚ)
  | px (n : ℤ)
deriving DecidableEq, Repr

/-- `config.ScratchpadConfig` (the compiled-regex fields of the dataclass are
derived, see `appIdRegex` / `titleRegex` below). -/
structure ScratchpadConfig where
  name : String
  command : Option (List String) := none
  app_id : Option String := none
  title : Option String := none
  width : Option SizeVal := none
  height : Option SizeVal := none
  position_map : List (Option String × Option (SizeVal × SizeVal)) := []
deriving DecidableEq, Repr

/-- The `.startswith("/")` test of `__post_init__`: the first character is a
slash. -/
def startsWithSlash (s : String) : Bool :=
  match s.data with
  | [] => false
  | c :: _ => c == '/'

/-- `ScratchpadConfig.__post_init__`: an `app_id` starting with `"/"` is
compiled as a regex over the remainder; this returns the pattern the
dataclass stores in `app_id_regex`. -/
def ScratchpadConfig.appIdRegex (c : ScratchpadConfig) : Option String :=
  match c.app_id with
  | some s => if truthyS (some s) && startsWithSlash s then some (s.drop 1) else none
  | none => none

/-- `ScratchpadConfig.__post_init__`: a `title` starting with `"/"` is compiled
as a regex over the remainder; this returns the pattern stored in `title_regex`. -/
def ScratchpadConfig.titleRegex (c : ScratchpadConfig) : Option String :=
  match c.title with
  | some s => if truthyS (some s) && startsWithSlash s then some (s.drop 1) else none
  | none => none

/-- `state.DaemonState`: the daemon's central in-memory state.
The field `previous_focused_window_id` is not declared in the dataclass but is
assigned dynamically by `server.py` and read by `scratchpad.py`; it is included
here with the spec's meaning (the previous-focus slot, §4.1). -/
structure DaemonState where
  windows : List (ℤ × WindowInfo) := []
  workspaces : List (ℤ × WorkspaceInfo) := []
  outputs : List (String × OutputInfo) := []
  focused_output : Option String := none
  focused_window_id : Option ℤ := none
  previous_focused_window_id : Option ℤ := none
  scratchpads : List (String × ScratchpadState) := []
  pending_spawns : List String := []
  window_to_scratchpad : List (ℤ × String) := []
  scratchpad_configs : List (String × ScratchpadConfig) := []
deriving DecidableEq, Repr

namespace DaemonState

/-- `DaemonState.get_scratchpad_for_window`. -/
def get_scratchpad_for_window (s : DaemonState) (window_id : ℤ) : Option String :=
  dictGet s.window_to_scratchpad window_id

/-- `DaemonState.register_scratchpad_window`: store the reverse-index entry,
create the scratchpad entry if missing, then stamp its window id and
last-used time (`time.time()` is passed in as `now`). -/
def register_scratchpad_window (s : DaemonState) (name : String) (window_id : ℤ)
    (now : ℚ) : DaemonState :=
  let wts := dictSet s.window_to_scratchpad window_id name
  let sps :=
    if (dictGet s.scratchpads name).isSome then s.scratchpads
    else s.scratchpads ++ [(name, ScratchpadState.init)]
  let sps := dictMod sps name fun st => { st with window_id := some window_id, last_used := now }
  { s with window_to_scratchpad := wts, scratchpads := sps }

/-- `DaemonState.unregister_scratchpad_window`: pop the reverse-index entry;
if a (truthy) name came out and has a scratchpad entry, null its window id
and clear visibility. -/
def unregister_scratchpad_window (s : DaemonState) (window_id : ℤ) : DaemonState :=
  let p := dictPop s.window_to_scratchpad window_id
  let s' := { s with window_to_scratchpad := p.2 }
  match p.1 with
  | some name =>
    if name != "" then
      if (dictGet s'.scratchpads name).isSome then
        { s' with scratchpads :=
            dictMod s'.scratchpads name fun st => { st with window_id := none, visible := false } }
      else s'
    else s'
  | none => s'

/-- `DaemonState.mark_scratchpad_visible`. -/
def mark_scratchpad_visible (s : DaemonState) (name : String) (now : ℚ) : DaemonState :=
  let sps :=
    if (dictGet s.scratchpads name).isSome then s.scratchpads
    else s.scratchpads ++ [(name, ScratchpadState.init)]
  { s with scratchpads := dictMod sps name fun st => { st with visible := true, last_used := now } }

/-- `DaemonState.mark_scratchpad_hidden`. -/
def mark_scratchpad_hidden (s : DaemonState) (name : String) (now : ℚ) : DaemonState :=
  if (dictGet s.scratchpads name).isSome then
    { s with scratchpads := dictMod s.scratchpads name fun st => { st with visible := false, last_used := now } }
  else s

/-- `DaemonState.get_most_recent_hidden_scratchpad`: Python `max(..., key=...)`
keeps the earliest element on ties, so the fold replaces only on strict
increase of `last_used`. -/
def get_most_recent_hidden_scratchpad (s : DaemonState) : Option String :=
  let candidates := s.scratchpads.filter fun p => p.2.window_id.isSome && !p.2.visible
  match candidates with
  | [] => none
  | x :: t => some (t.foldl (fun acc y => if acc.2.last_used < y.2.last_used then y else acc) x).1

/-- One step of `DaemonState.reconcile_with_windows`: pop an orphaned window id
and clear the owning scratchpad entry (`if name and name in self.scratchpads`). -/
def reconcileStep (s : DaemonState) (window_id : ℤ) : DaemonState :=
  let p := dictPop s.window_to_scratchpad window_id
  let s' := { s with window_to_scratchpad := p.2 }
  match p.1 with
  | some name =>
    if name != "" && (dictGet s'.scratchpads name).isSome then
      { s' with scratchpads :=
          dictMod s'.scratchpads name fun st => { st with window_id := none, visible := false } }
    else s'
  | none => s'

/-- `DaemonState.reconcile_with_windows`: drop every reverse-index binding
whose window id is not in the live set, clearing the owning entries; the
returned flag records whether anything was orphaned (and hence re-persisted). -/
def reconcile_with_windows (s : DaemonState) (window_ids : List ℤ) : DaemonState × Bool :=
  let orphaned := (s.window_to_scratchpad.map Prod.fst).filter fun w => !(window_ids.contains w)
  (orphaned.foldl reconcileStep s, !orphaned.isEmpty)

/-- Modelled from the spec: `DaemonState.update_scratchpad_recency` is called
by `server.py` and `scratchpad.py` but its definition is not among the
source files; per §4.1/§4.2 it refreshes the last-used stamp of the
scratchpad owning the window, if any. -/
def update_scratchpad_recency (s : DaemonState) (window_id : ℤ) (now : ℚ) : DaemonState :=
  match dictGet s.window_to_scratchpad window_id with
  | some name =>
    if (dictGet s.scratchpads name).isSome then
      { s with scratchpads := dictMod s.scratchpads name fun st => { st with last_used := now } }
    else s
  | none => s

end DaemonState

/-- One entry of the `scratchpads` object in the persisted JSON state file.
The source serialises window ids with `str` and parses them back with `int`;
those are mutually inverse on integers, so the embedding keeps the integer. -/
structure PersistedScratchpad where
  window_id : ℤ
  visible : Bool
  last_used : ℚ
deriving DecidableEq, Repr

/-- The persisted JSON state file
`{niri_session, scratchpads, window_to_scratchpad}` (§6). -/
structure PersistedState where
  niri_session : String
  scratchpads : List (String × PersistedScratchpad) := []
  window_to_scratchpad : List (ℤ × String) := []
deriving DecidableEq, Repr

namespace DaemonState

/-- `DaemonState.save_scratchpad_state`: with no session id nothing is written;
otherwise the file is atomically replaced with the current session id, the
scratchpad entries that have a window id, and the whole reverse index.
The on-disk file is modelled as `Option PersistedState` (`none` = absent). -/
def save_scratchpad_state (s : DaemonState) (session : Option String)
    (file : Option PersistedState) : Option PersistedState :=
  match session with
  | none => file
  | some sid =>
    some
      { niri_session := sid
        scratchpads := s.scratchpads.filterMap fun p =>
          p.2.window_id.map fun w => (p.1, ⟨w, p.2.visible, p.2.last_used⟩)
        window_to_scratchpad := s.window_to_scratchpad }

/-- `DaemonState.load_scratchpad_state`: returns (loaded?, new state, file after
the call).  A missing file or missing session id restores nothing; a session
mismatch restores nothing and deletes the file (`STATE_FILE.unlink()`); on a
match each persisted entry is written into the store by dict assignment. -/
def load_scratchpad_state (s : DaemonState) (session : Option String)
    (file : Option PersistedState) : Bool × DaemonState × Option PersistedState :=
  match file with
  | none => (false, s, none)
  | some f =>
    match session with
    | none => (false, s, some f)
    | some sid =>
      if f.niri_session != sid then (false, s, none)
      else
        let sps := f.scratchpads.foldl
          (fun acc p => dictSet acc p.1 ⟨some p.2.window_id, p.2.visible, p.2.last_used⟩)
          s.scratchpads
        let wts := f.window_to_scratchpad.foldl (fun acc p => dictSet acc p.1 p.2)
          s.window_to_scratchpad
        (true, { s with scratchpads := sps, window_to_scratchpad := wts }, some f)

end DaemonState

/-! ## Config loader (`config._load_config_recursive`) -/

/-- Parsed YAML content of one config file.  `empty` marks a file whose parse
is falsy (`if not config: return {}`); `includes` is the `include` entry
already normalised to a list (the source wraps a bare string). A missing
`settings` / `scratchpads` key is `none` (`if "settings" in config`). -/
structure ConfigFile where
  empty : Bool := false
  includes : List String := []
  settings : Option (List (String × String)) := none
  scratchpads : Option (List (String × String)) := none
deriving DecidableEq, Repr

/-- The `{"settings": ..., "scratchpads": ...}` dict being accumulated by
`_load_config_recursive`; scratchpad definitions are kept abstract as strings. -/
structure RawConfig where
  settings : List (String × String) := []
  scratchpads : List (String × String) := []
deriving DecidableEq, Repr

/-- The initial `{"settings": {}, "scratchpads": {}}` result dict. -/
def RawConfig.init : RawConfig := ⟨[], []⟩

/-- Python `d.update(other)`. -/
def dictUpdate {α β : Type} [BEq α] (l other : List (α × β)) : List (α × β) :=
  other.foldl (fun acc p => dictSet acc p.1 p.2) l

/-- Merging a recursively loaded include into the result dict: a bare `{}`
(from a visited, missing or empty file) has neither key and contributes
nothing; otherwise both maps are `update`d. -/
def mergeChild (res : RawConfig) : Option RawConfig → RawConfig
  | none => res
  | some inc =>
    { settings := dictUpdate res.settings inc.settings
      scratchpads := dictUpdate res.scratchpads inc.scratchpads }

/-- Merging the including file's own `settings` / `scratchpads` after its
includes (parent wins on key collision). -/
def mergeOwnFile (res : RawConfig) (cfg : ConfigFile) : RawConfig :=
  let res' :=
    match cfg.settings with
    | some st => { res with settings := dictUpdate res.settings st }
    | none => res
  match cfg.scratchpads with
  | some sc => { res' with scratchpads := dictUpdate res'.scratchpads sc }
  | none => res'

/-- Abstract filesystem for the config loader: `files` maps resolved paths to
parsed YAML content (a path absent from it fails the `exists()` checks);
`resolve` models `Path.resolve()` and `join` models `config_path.parent /
include_path_str`.  YAML parse errors raise and abort the whole reload (§4.5)
and are outside this model, which covers well-parsed file trees. -/
structure ConfigFS where
  files : List (String × ConfigFile) := []
  resolve : String → String
  join : String → String → String

/-- The mutable accumulators `visited`, `loaded_files`, `warnings` threaded
through the recursion (Python passes them as shared mutable objects). -/
structure LoadAcc where
  visited : List String := []
  loaded : List String := []
  warnings : List String := []
deriving DecidableEq, Repr

mutual

/-- `config._load_config_recursive`, with an explicit recursion-depth budget
`fuel`; `none` is returned only on fuel exhaustion, and the termination
theorem for claim C8 shows a budget of one more than the number of unvisited
files always suffices.  An inner `Option RawConfig` of `none` models the bare
`{}` returned for visited, missing, or empty files. -/
def loadConfigRec (fs : ConfigFS) (fuel : ℕ) (path0 : String) (acc : LoadAcc) :
    Option (Option RawConfig × LoadAcc) :=
  match fuel with
  | 0 => none
  | fuel' + 1 =>
    let path := fs.resolve path0
    if acc.visited.contains path then some (none, acc)
    else
      match dictGet fs.files path with
      | none => some (none, acc)
      | some cfg =>
        let acc2 := { acc with visited := path :: acc.visited, loaded := acc.loaded ++ [path] }
        if cfg.empty then some (none, acc2)
        else
          match loadIncludes fs fuel' path cfg.includes RawConfig.init acc2 with
          | none => none
          | some (res, acc3) => some (some (mergeOwnFile res cfg), acc3)

/-- The `for include_path_str in includes:` loop of `_load_config_recursive`:
a missing include is a warning and is skipped; otherwise the include is
loaded recursively and merged before the parent's own definitions. -/
def loadIncludes (fs : ConfigFS) (fuel : ℕ) (path : String) (incs : List String)
    (res : RawConfig) (acc : LoadAcc) : Option (RawConfig × LoadAcc) :=
  match incs with
  | [] => some (res, acc)
  | inc :: rest =>
    let ip := fs.resolve (fs.join path inc)
    if (dictGet fs.files ip).isNone then
      loadIncludes fs fuel path rest res
        { acc with warnings := acc.warnings ++ ["Include file not found: " ++ ip] }
    else
      match loadConfigRec fs fuel ip acc with
      | none => none
      | some (childRes, acc') => loadIncludes fs fuel path rest (mergeChild res childRes) acc'

end

/-! ## Scratchpad manager (`scratchpad.py`) -/

/-- Python truthiness of an optional list (`if config.command:`). -/
def truthyL {α : Type} : Option (List α) → Bool
  | none => false
  | some l => !l.isEmpty

/-- Python truthiness of an optional integer (`if window_id:`): `None` and `0`
are falsy. -/
def truthyI : Option ℤ → Bool
  | none => false
  | some n => n != 0

/-- The `niri msg action ...` invocations, desktop notifications, state-file
writes and daemon lifecycle effects issued by the manager and server. -/
inductive NiriAction where
  | spawn (cmd : List String)
  | moveWindowToFloating (id : ℤ)
  | moveWindowToTiling (id : ℤ)
  | setWindowWidth (id : ℤ) (w : SizeVal)
  | setWindowHeight (id : ℤ) (h : SizeVal)
  | centerWindow (id : ℤ)
  | moveFloatingWindow (id : ℤ) (x y : ℤ)
  | moveWindowToMonitor (id : ℤ) (output : String)
  | moveWindowToWorkspace (id : ℤ) (focus : Bool) (ws : String)
  | focusWindow (id : ℤ)
  | closeWindow (id : ℤ)
  | saveState
  | notifyError (title msg : String)
  | spawnDaemon
  | stopDaemon
deriving DecidableEq, Repr

/-- `status` response data (process facts read from the OS at dispatch time). -/
structure StatusInfo where
  pid : ℤ
  cmdline : String
  ppid : ℤ
  parent_cmdline : String
  socket : String
deriving DecidableEq, Repr

/-- External inputs of a manager operation: the clock, the regex engine
(`re.Pattern.search` truthiness, abstract since Python regex semantics are
external), the picker (rofi) outcomes, the process facts for `status`, and
`DaemonState.is_on_scratchpad_workspace` — a method called by `toggle` whose
definition is not among the source files, modelled from the spec (§4.3) as an
abstract predicate "this window is parked on the dedicated hidden workspace". -/
structure Env where
  now : ℚ
  search : String → String → Bool
  onScratchWs : DaemonState → WindowInfo → Bool
  rofiAdopt : List String → Option String
  rofiConfirm : String → Bool
  menuOutcome : List String → ℕ × Option ℤ
  status : StatusInfo

/-- `scratchpad.convert_position_to_pixels`: a percentage is taken of the
valid on-screen range `max 0 (output - window)` and truncated with `int()`;
a pixel value is used directly. -/
def convert_position_to_pixels (coords : SizeVal × SizeVal)
    (output_width output_height window_width window_height : ℤ) : ℤ × ℤ :=
  let x := match coords.1 with
    | .pct p => pyTrunc ((pyMax 0 (output_width - window_width) : ℤ) * p / 100)
    | .px n => n
  let y := match coords.2 with
    | .pct p => pyTrunc ((pyMax 0 (output_height - window_height) : ℤ) * p / 100)
    | .px n => n
  (x, y)

/-- `ScratchpadManager._matches_config`: app-id regex, else app-id equality,
else title regex, else title equality. -/
def matchesConfig (search : String → String → Bool) (w : WindowInfo)
    (c : ScratchpadConfig) : Bool :=
  match c.appIdRegex with
  | some pat => search pat w.app_id
  | none =>
    if truthyS c.app_id then w.app_id == c.app_id.getD ""
    else
      match c.titleRegex with
      | some pat => search pat w.title
      | none => if truthyS c.title then w.title == c.title.getD "" else false

namespace DaemonState

/-- `DaemonState.get_active_workspace_for_output`: first active workspace on
the output, in dict iteration order. -/
def get_active_workspace_for_output (s : DaemonState) (output : String) :
    Option WorkspaceInfo :=
  (s.workspaces.map Prod.snd).find? fun ws => ws.output == output && ws.is_active

/-- `DaemonState.get_focused_workspace`. -/
def get_focused_workspace (s : DaemonState) : Option WorkspaceInfo :=
  if !truthyS s.focused_output then none
  else s.get_active_workspace_for_output (s.focused_output.getD "")

end DaemonState

namespace Manager

/-- `ScratchpadManager._get_expected_window_size`: percentages of the raw
output dimensions, absolute pixels otherwise, zero when unconfigured. -/
def getExpectedWindowSize (config : ScratchpadConfig)
    (output_width output_height : ℤ) : ℤ × ℤ :=
  let width := match config.width with
    | some (.pct p) => pyTrunc ((output_width : ℚ) * p / 100)
    | some (.px n) => n
    | none => 0
  let height := match config.height with
    | some (.pct p) => pyTrunc ((output_height : ℚ) * p / 100)
    | some (.px n) => n
    | none => 0
  (width, height)

/-- `ScratchpadManager._position_window`: per-output entry, else the `None`
(default) entry; a `None` coordinate value means the window-manager center
action; otherwise the pixel target is computed against the output size. -/
def positionWindow (s : DaemonState) (window_id : ℤ) (config : ScratchpadConfig) :
    List NiriAction :=
  if config.position_map.isEmpty then []
  else
    let output_name := s.focused_output
    let here := dictGet config.position_map output_name
    let coords := match here with
      | some c => c
      | none => (dictGet config.position_map none).join
    if (dictGet config.position_map output_name).isSome
        || (dictGet config.position_map none).isSome then
      match coords with
      | none => [.centerWindow window_id]
      | some c =>
        match dictGet s.outputs (output_name.getD "") with
        | some output =>
          let wh := getExpectedWindowSize config output.width output.height
          let xy := convert_position_to_pixels c output.width output.height wh.1 wh.2
          [.moveFloatingWindow window_id xy.1 xy.2]
        | none => []
    else []

/-- `ScratchpadManager._configure_window`: float the window, apply configured
width/height, then position it.  Pure action sequence, no state change. -/
def configureWindow (s : DaemonState) (window_id : ℤ) (config : ScratchpadConfig) :
    List NiriAction :=
  [.moveWindowToFloating window_id]
    ++ (match config.width with | some w => [.setWindowWidth window_id w] | none => [])
    ++ (match config.height with | some h => [.setWindowHeight window_id h] | none => [])
    ++ positionWindow s window_id config

/-- `ScratchpadManager._spawn_scratchpad`: idempotent per name via the pending
set; issues the launch command through the window manager's spawn action. -/
def spawnScratchpad (s : DaemonState) (name : String) (config : ScratchpadConfig) :
    DaemonState × List NiriAction :=
  if s.pending_spawns.contains name then (s, [])
  else
    let s' := { s with pending_spawns := s.pending_spawns ++ [name] }
    match config.command with
    | some cmd => if !cmd.isEmpty then (s', [.spawn cmd]) else (s', [])
    | none => (s', [])

/-- `ScratchpadManager._move_to_current_workspace`. -/
def moveToCurrentWorkspace (s : DaemonState) (window_id : ℤ) : List NiriAction :=
  if truthyS s.focused_output then
    [.moveWindowToMonitor window_id (s.focused_output.getD "")]
  else []

/-- `ScratchpadManager._focus_window`: updates focus and previous-focus slots
and scratchpad recency eagerly, then issues the focus action. -/
def focusWindowOp (env : Env) (s : DaemonState) (window_id : ℤ) :
    DaemonState × List NiriAction :=
  let s' :=
    if s.focused_window_id != some window_id then
      let s2 := { s with previous_focused_window_id := s.focused_window_id,
                         focused_window_id := some window_id }
      s2.update_scratchpad_recency window_id env.now
    else s
  (s', [.focusWindow window_id])

/-- `ScratchpadManager._focus_previous_window`. -/
def focusPreviousWindow (env : Env) (s : DaemonState) : DaemonState × List NiriAction :=
  match s.previous_focused_window_id with
  | some prev =>
    if (dictGet s.windows prev).isSome then focusWindowOp env s prev else (s, [])
  | none => (s, [])

/-- `ScratchpadManager._hide_scratchpad`: park on the hidden workspace, mark
hidden, persist. -/
def hideScratchpad (env : Env) (s : DaemonState) (name : String) (window_id : ℤ) :
    DaemonState × List NiriAction :=
  let s' := s.mark_scratchpad_hidden name env.now
  (s', [.moveWindowToWorkspace window_id false SCRATCHPAD_WORKSPACE, .saveState])

/-- `ScratchpadManager._show_scratchpad`: configure, move to the focused
monitor, focus, mark visible, re-register, persist. -/
def showScratchpad (env : Env) (s : DaemonState) (name : String) (window_id : ℤ)
    (config : ScratchpadConfig) : DaemonState × List NiriAction :=
  if !truthyS s.focused_output then (s, [])
  else
    let a1 := configureWindow s window_id config
    let a2 := [NiriAction.moveWindowToMonitor window_id (s.focused_output.getD "")]
    let r := focusWindowOp env s window_id
    let s2 := r.1.mark_scratchpad_visible name env.now
    let s3 := s2.register_scratchpad_window name window_id env.now
    (s3, a1 ++ a2 ++ r.2 ++ [.saveState])

/-- `ScratchpadManager._float_scratchpad`. -/
def floatScratchpadInternal (env : Env) (s : DaemonState) (name : String)
    (window_id : ℤ) (bring_to_current : Bool) : DaemonState × List NiriAction :=
  match dictGet s.scratchpad_configs name with
  | none => (s, [])
  | some config =>
    let a1 := configureWindow s window_id config
    let a2 := if bring_to_current then moveToCurrentWorkspace s window_id else []
    let r := focusWindowOp env s window_id
    (r.1, a1 ++ a2 ++ r.2)

/-- `ScratchpadManager._tile_scratchpad`. -/
def tileScratchpadInternal (env : Env) (s : DaemonState) (name : String)
    (window_id : ℤ) (bring_to_current : Bool) : DaemonState × List NiriAction :=
  let a1 := if bring_to_current then moveToCurrentWorkspace s window_id else []
  let a2 := [NiriAction.moveWindowToTiling window_id]
  let r := focusWindowOp env s window_id
  (r.1, a1 ++ a2 ++ r.2)

/-- `ScratchpadManager.toggle` (§4.3): the full show/hide/spawn/focus state
machine for one named scratchpad. -/
def toggle (env : Env) (s : DaemonState) (name : String) : DaemonState × List NiriAction :=
  match dictGet s.scratchpad_configs name with
  | none => (s, [])
  | some config =>
    match (dictGet s.scratchpads name).bind (fun st => st.window_id) with
    | none =>
      if truthyL config.command then spawnScratchpad s name config else (s, [])
    | some window_id =>
      match dictGet s.windows window_id with
      | none =>
        let s' := s.unregister_scratchpad_window window_id
        if truthyL config.command then spawnScratchpad s' name config else (s', [])
      | some window =>
        match s.get_focused_workspace with
        | none => (s, [])
        | some focused_ws =>
          if window.is_focused then
            if window.is_floating then hideScratchpad env s name window_id
            else focusPreviousWindow env s
          else if window.workspace_id != some focused_ws.id then
            if window.is_floating then showScratchpad env s name window_id config
            else if env.onScratchWs s window then
              let a1 := moveToCurrentWorkspace s window_id
              let r := focusWindowOp env s window_id
              (r.1, a1 ++ r.2)
            else focusWindowOp env s window_id
          else focusWindowOp env s window_id

/-- `ScratchpadManager._get_most_recent_scratchpad_with_window`. -/
def getMostRecentScratchpadWithWindow (s : DaemonState) : Option String :=
  let candidates := s.scratchpads.filter fun p =>
    p.2.window_id.isSome && (dictGet s.windows (p.2.window_id.getD 0)).isSome
  match candidates with
  | [] => none
  | x :: t =>
    some (t.foldl (fun acc y => if acc.2.last_used < y.2.last_used then y else acc) x).1

/-- `ScratchpadManager.smart_toggle`: hide the focused (or recently focused
visible) scratchpad, else show the most recently used hidden one. -/
def smart_toggle (env : Env) (s : DaemonState) : DaemonState × List NiriAction :=
  let window_id0 := s.focused_window_id
  let name0 :=
    if truthyI window_id0 then s.get_scratchpad_for_window (window_id0.getD 0) else none
  let pair :=
    if !truthyS name0 && truthyI s.previous_focused_window_id then
      let prev := s.previous_focused_window_id.getD 0
      match s.get_scratchpad_for_window prev with
      | some prev_name =>
        if prev_name != "" then
          match dictGet s.scratchpads prev_name with
          | some prev_state =>
            if prev_state.visible then (some prev, some prev_name) else (window_id0, name0)
          | none => (window_id0, name0)
        else (window_id0, name0)
      | none => (window_id0, name0)
    else (window_id0, name0)
  if truthyS pair.2 && truthyI pair.1 then
    let wid := pair.1.getD 0
    let nm := pair.2.getD ""
    match dictGet s.windows wid with
    | some window =>
      if window.is_floating then hideScratchpad env s nm wid
      else focusPreviousWindow env s
    | none => focusPreviousWindow env s
  else
    let mrh := s.get_most_recent_hidden_scratchpad
    if truthyS mrh then toggle env s (mrh.getD "") else (s, [])

/-- `ScratchpadManager.hide`: hide the focused floating window, through the
scratchpad path when tracked, by bare relocation otherwise. -/
def hide (env : Env) (s : DaemonState) : DaemonState × List NiriAction :=
  if !truthyI s.focused_window_id then (s, [])
  else
    let wid := s.focused_window_id.getD 0
    match dictGet s.windows wid with
    | none => (s, [])
    | some window =>
      if !window.is_floating then (s, [])
      else
        match s.get_scratchpad_for_window wid with
        | some name =>
          if name != "" then hideScratchpad env s name wid
          else (s, [.moveWindowToWorkspace wid false SCRATCHPAD_WORKSPACE])
        | none => (s, [.moveWindowToWorkspace wid false SCRATCHPAD_WORKSPACE])

/-- Stable insertion of an element into a sorted list. -/
def insertSortedBy {α : Type} (le : α → α → Bool) (x : α) : List α → List α
  | [] => [x]
  | y :: t => if le x y then x :: y :: t else y :: insertSortedBy le x t

/-- Python `sorted` with a boolean comparison. -/
def sortBy {α : Type} (le : α → α → Bool) (l : List α) : List α :=
  l.foldr (insertSortedBy le) []

/-- Lexicographic comparison of character lists by code point. -/
def charListLt : List Char → List Char → Bool
  | [], [] => false
  | [], _ :: _ => true
  | _ :: _, [] => false
  | a :: as, b :: bs =>
    if a.toNat < b.toNat then true
    else if b.toNat < a.toNat then false
    else charListLt as bs

/-- Lexicographic string comparison by code point (`sorted` over strings,
matching Python string ordering). -/
def strLe (a b : String) : Bool := a == b || charListLt a.data b.data

/-- `ScratchpadManager._get_available_scratchpads`: configured names without a
live window, sorted. -/
def getAvailableScratchpads (s : DaemonState) : List String :=
  let available := (s.scratchpad_configs.map Prod.fst).filter fun name =>
    match dictGet s.scratchpads name with
    | none => true
    | some sp =>
      match sp.window_id with
      | none => true
      | some w => (dictGet s.windows w).isNone
  sortBy strLe available

/-- `ScratchpadManager._prompt_scratchpad_name`: the raw picker outcome is
accepted only if non-empty and among the offered names. -/
def promptScratchpadName (env : Env) (available : List String) : Option String :=
  match env.rofiAdopt available with
  | none => none
  | some sel => if sel != "" && available.contains sel then some sel else none

/-- Tail of `ScratchpadManager.adopt` after all validation: register, mark
visible, configure, persist. -/
def adoptFinish (env : Env) (s : DaemonState) (name : String) (wid : ℤ) :
    DaemonState × List NiriAction :=
  match dictGet s.scratchpad_configs name with
  | some config =>
    let s2 := s.register_scratchpad_window name wid env.now
    let s3 := s2.mark_scratchpad_visible name env.now
    (s3, configureWindow s3 wid config ++ [.saveState])
  | none => (s, [])

/-- `ScratchpadManager.adopt`: bind an existing window to a scratchpad
identity, prompting for the name when omitted. -/
def adopt (env : Env) (s : DaemonState) (window_id? : Option ℤ)
    (name? : Option String) : DaemonState × List NiriAction :=
  match (match window_id? with | some w => some w | none => s.focused_window_id) with
  | none => (s, [.notifyError "Scratchpad Error" "No focused window to adopt"])
  | some wid =>
    match dictGet s.windows wid with
    | none => (s, [.notifyError "Scratchpad Error" "Window not found"])
    | some _ =>
      if truthyS (s.get_scratchpad_for_window wid) then
        (s, [.notifyError "Scratchpad Error" "Window is already a scratchpad"])
      else
        let available := getAvailableScratchpads s
        if available.isEmpty then
          (s, [.notifyError "Scratchpad Error" "No scratchpads available"])
        else
          match (match name? with
                 | some n => some n
                 | none => promptScratchpadName env available) with
          | none => (s, [])
          | some name =>
            if (dictGet s.scratchpad_configs name).isNone then
              (s, [.notifyError "Scratchpad Error" "Unknown scratchpad"])
            else
              match dictGet s.scratchpads name with
              | some sp =>
                match sp.window_id with
                | some oldw =>
                  if (dictGet s.windows oldw).isSome then
                    (s, [.notifyError "Scratchpad Error" "Scratchpad already has a window"])
                  else adoptFinish env (s.unregister_scratchpad_window oldw) name wid
                | none => adoptFinish env s name wid
              | none => adoptFinish env s name wid

/-- `ScratchpadManager.disown`: unregister a scratchpad window and tile it. -/
def disown (env : Env) (s : DaemonState) (window_id? : Option ℤ) :
    DaemonState × List NiriAction :=
  match (match window_id? with | some w => some w | none => s.focused_window_id) with
  | none => (s, [.notifyError "Scratchpad Error" "No focused window to disown"])
  | some wid =>
    match dictGet s.windows wid with
    | none => (s, [.notifyError "Scratchpad Error" "Window not found"])
    | some _ =>
      if !truthyS (s.get_scratchpad_for_window wid) then
        (s, [.notifyError "Scratchpad Error" "Window is not a scratchpad"])
      else
        let s' := s.unregister_scratchpad_window wid
        (s', [.moveWindowToTiling wid, .saveState])

/-- `ScratchpadManager.close`: close a scratchpad window, optionally after
showing it and asking the picker for confirmation. -/
def close (env : Env) (s : DaemonState) (window_id? : Option ℤ) (confirm : Bool) :
    DaemonState × List NiriAction :=
  match (match window_id? with | some w => some w | none => s.focused_window_id) with
  | none => (s, [.notifyError "Scratchpad Error" "No focused window to close"])
  | some wid =>
    match dictGet s.windows wid with
    | none => (s, [.notifyError "Scratchpad Error" "Window not found"])
    | some window =>
      let name? := s.get_scratchpad_for_window wid
      if !truthyS name? then
        (s, [.notifyError "Scratchpad Error" "Window is not a scratchpad"])
      else
        let name := name?.getD ""
        if confirm then
          let shown :=
            match dictGet s.scratchpad_configs name with
            | some config => showScratchpad env s name window.id config
            | none => (s, [])
          if env.rofiConfirm name then (shown.1, shown.2 ++ [.closeWindow wid])
          else shown
        else (s, [.closeWindow wid])

/-- `ScratchpadManager._resolve_scratchpad` by explicit name. -/
def resolveLookupByName (s : DaemonState) (n : String) :
    Option (String × ℤ × WindowInfo) × List NiriAction :=
  match dictGet s.scratchpads n with
  | none => (none, [.notifyError "Scratchpad Error" "Scratchpad has no window"])
  | some sp =>
    match sp.window_id with
    | none => (none, [.notifyError "Scratchpad Error" "Scratchpad has no window"])
    | some wid =>
      match dictGet s.windows wid with
      | none => (none, [.notifyError "Scratchpad Error" "Window not found"])
      | some w => (some (n, wid, w), [])

/-- `ScratchpadManager._resolve_scratchpad`: the focused window's scratchpad,
else the most recently used scratchpad with a window, else by given name. -/
def resolveScratchpad (s : DaemonState) (name? : Option String) :
    Option (String × ℤ × WindowInfo) × List NiriAction :=
  match name? with
  | some n => resolveLookupByName s n
  | none =>
    let direct : Option (String × ℤ × WindowInfo) :=
      if truthyI s.focused_window_id then
        let wid := s.focused_window_id.getD 0
        match s.get_scratchpad_for_window wid with
        | some n =>
          if n != "" then
            match dictGet s.windows wid with
            | some w => some (n, wid, w)
            | none => none
          else none
        | none => none
      else none
    match direct with
    | some r => (some r, [])
    | none =>
      match getMostRecentScratchpadWithWindow s with
      | some n =>
        if n != "" then resolveLookupByName s n
        else (none, [.notifyError "Scratchpad Error" "No scratchpad with a window"])
      | none => (none, [.notifyError "Scratchpad Error" "No scratchpad with a window"])

/-- `ScratchpadManager.toggle_float`. -/
def toggle_float (env : Env) (s : DaemonState) (name? : Option String) :
    DaemonState × List NiriAction :=
  match resolveScratchpad s name? with
  | (none, acts) => (s, acts)
  | (some (name, wid, window), acts) =>
    let bring := s.focused_window_id != some wid
    if window.is_floating then
      let r := tileScratchpadInternal env s name wid bring
      (r.1, acts ++ r.2)
    else
      let r := floatScratchpadInternal env s name wid bring
      (r.1, acts ++ r.2)

/-- `ScratchpadManager.float_scratchpad`. -/
def float_scratchpad (env : Env) (s : DaemonState) (name? : Option String) :
    DaemonState × List NiriAction :=
  match resolveScratchpad s name? with
  | (none, acts) => (s, acts)
  | (some (name, wid, window), acts) =>
    if window.is_floating then (s, acts)
    else
      let bring := s.focused_window_id != some wid
      let r := floatScratchpadInternal env s name wid bring
      (r.1, acts ++ r.2)

/-- `ScratchpadManager.tile_scratchpad`. -/
def tile_scratchpad (env : Env) (s : DaemonState) (name? : Option String) :
    DaemonState × List NiriAction :=
  match resolveScratchpad s name? with
  | (none, acts) => (s, acts)
  | (some (name, wid, window), acts) =>
    if !window.is_floating then (s, acts)
    else
      let bring := s.focused_window_id != some wid
      let r := tileScratchpadInternal env s name wid bring
      (r.1, acts ++ r.2)

/-- `ScratchpadManager._scratchpad_has_window`. -/
def scratchpadHasWindow (s : DaemonState) (name : String) : Bool :=
  match dictGet s.scratchpads name with
  | none => false
  | some sp =>
    match sp.window_id with
    | none => false
    | some w => (dictGet s.windows w).isSome

/-- `ScratchpadManager._get_scratchpad_last_used`. -/
def scratchpadLastUsed (s : DaemonState) (name : String) : ℚ :=
  match dictGet s.scratchpads name with
  | some sp => sp.last_used
  | none => 0

/-- The sort key of `ScratchpadManager.menu`: has-a-window first, then most
recently used, then name. -/
def menuKeyLe (s : DaemonState) (a b : String) : Bool :=
  let na := !scratchpadHasWindow s a
  let nb := !scratchpadHasWindow s b
  if na != nb then na == false
  else
    let la := scratchpadLastUsed s a
    let lb := scratchpadLastUsed s b
    if la != lb then lb < la
    else strLe a b

/-- `ScratchpadManager.menu`: sort the configured names, show the picker, and
dispatch on the terminating key (Enter/toggle, C-d/disown, C-BackSpace/close,
C-f/float, C-t/tile). -/
def menu (env : Env) (s : DaemonState) : DaemonState × List NiriAction :=
  let sorted_names := sortBy (menuKeyLe s) (s.scratchpad_configs.map Prod.fst)
  if sorted_names.isEmpty then (s, [])
  else
    let out := env.menuOutcome sorted_names
    if out.1 == 1 then (s, [])
    else
      match out.2 with
      | none => (s, [])
      | some idx =>
        if 0 ≤ idx && idx < sorted_names.length then
          let name := sorted_names.getD idx.toNat ""
          let window_id := (dictGet s.scratchpads name).bind fun sp => sp.window_id
          if out.1 == 0 then toggle env s name
          else if out.1 == 10 then
            match window_id with
            | some w => disown env s (some w)
            | none => (s, [.notifyError "Scratchpad Error" "Scratchpad not found"])
          else if out.1 == 11 then
            match window_id with
            | some w => close env s (some w) true
            | none => (s, [.notifyError "Scratchpad Error" "Scratchpad has no window"])
          else if out.1 == 12 then
            match window_id with
            | some w => floatScratchpadInternal env s name w true
            | none => (s, [.notifyError "Scratchpad Error" "Scratchpad has no window"])
          else if out.1 == 13 then
            match window_id with
            | some w => tileScratchpadInternal env s name w true
            | none => (s, [.notifyError "Scratchpad Error" "Scratchpad has no window"])
          else (s, [])
        else (s, [])

/-- The loop body of `ScratchpadManager.handle_window_opened` over a snapshot
of the pending-spawn set: a pending name with no config is dropped; the first
pending name whose rule matches is consumed, registered, marked visible,
configured and persisted, and iteration stops. -/
def handleWindowOpenedGo (env : Env) (w : WindowInfo) :
    List String → DaemonState → DaemonState × List NiriAction
  | [], s => (s, [])
  | name :: rest, s =>
    match dictGet s.scratchpad_configs name with
    | none =>
      handleWindowOpenedGo env w rest
        { s with pending_spawns := s.pending_spawns.erase name }
    | some config =>
      if matchesConfig env.search w config then
        let s1 := { s with pending_spawns := s.pending_spawns.erase name }
        let s2 := s1.register_scratchpad_window name w.id env.now
        let s3 := s2.mark_scratchpad_visible name env.now
        (s3, configureWindow s3 w.id config ++ [.saveState])
      else handleWindowOpenedGo env w rest s

/-- `ScratchpadManager.handle_window_opened`. -/
def handle_window_opened (env : Env) (s : DaemonState) (w : WindowInfo) :
    DaemonState × List NiriAction :=
  handleWindowOpenedGo env w s.pending_spawns s

end Manager

/-! ## Control server dispatch (`server.DaemonServer._dispatch_command`) -/

/-- The decoded JSON command object fields `_dispatch_command` consults. -/
structure CommandMsg where
  cmd : Option String := none
  name : Option String := none
  window_id : Option ℤ := none
  confirm : Bool := true
deriving DecidableEq, Repr

/-- `DaemonServer._dispatch_command`: route by the `cmd` field to a manager
operation or a lifecycle operation; only `status` produces a response; an
unrecognised command is logged and ignored.  `restart` is modelled on its
success path (spawn the replacement, then stop). -/
def dispatch_command (env : Env) (s : DaemonState) (c : CommandMsg) :
    DaemonState × List NiriAction × Option StatusInfo :=
  if c.cmd == some "toggle" then
    let r := if truthyS c.name then Manager.toggle env s (c.name.getD "")
             else Manager.smart_toggle env s
    (r.1, r.2, none)
  else if c.cmd == some "hide" then
    let r := Manager.hide env s
    (r.1, r.2, none)
  else if c.cmd == some "adopt" then
    let r := Manager.adopt env s c.window_id c.name
    (r.1, r.2, none)
  else if c.cmd == some "disown" then
    let r := Manager.disown env s c.window_id
    (r.1, r.2, none)
  else if c.cmd == some "menu" then
    let r := Manager.menu env s
    (r.1, r.2, none)
  else if c.cmd == some "close" then
    let r := Manager.close env s c.window_id c.confirm
    (r.1, r.2, none)
  else if c.cmd == some "toggle-float" then
    let r := Manager.toggle_float env s c.name
    (r.1, r.2, none)
  else if c.cmd == some "float" then
    let r := Manager.float_scratchpad env s c.name
    (r.1, r.2, none)
  else if c.cmd == some "tile" then
    let r := Manager.tile_scratchpad env s c.name
    (r.1, r.2, none)
  else if c.cmd == some "restart" then (s, [.spawnDaemon, .stopDaemon], none)
  else if c.cmd == some "stop" then (s, [.stopDaemon], none)
  else if c.cmd == some "status" then (s, [], some env.status)
  else (s, [], none)

/-! ## Lemmas about the dict model -/

section DictLemmas

variable {α β : Type} [BEq α] [LawfulBEq α]

theorem dictGet_dictSet_self (l : List (α × β)) (k : α) (v : β) :
    dictGet (dictSet l k v) k = some v := by
  induction l with
  | nil => simp [dictSet, dictGet]
  | cons p t ih =>
    by_cases h : p.1 == k
    · simp [dictSet, dictGet, h]
    · simp only [dictSet, dictGet, h, Bool.false_eq_true, if_false]
      exact ih

theorem dictGet_dictSet_ne (l : List (α × β)) (k : α) (v : β) (k' : α)
    (h : k' ≠ k) : dictGet (dictSet l k v) k' = dictGet l k' := by
  induction l with
  | nil =>
    have : (k == k') = false := by
      simp only [beq_eq_false_iff_ne]
      exact fun hk => h hk.symm
    simp [dictSet, dictGet, this]
  | cons p t ih =>
    by_cases hp : p.1 == k
    · have hk : p.1 = k := eq_of_beq hp
      have : (p.1 == k') = false := by
        simp only [beq_eq_false_iff_ne]
        exact fun hh => h (hh ▸ hk.symm ▸ rfl)
      simp [dictSet, dictGet, hp, this]
    · simp only [dictSet, dictGet, hp, Bool.false_eq_true, if_false]
      by_cases hq : p.1 == k'
      · simp [dictGet, hq]
      · simp only [dictGet, hq, Bool.false_eq_true, if_false]
        exact ih

theorem dictGet_eq_none_iff (l : List (α × β)) (k : α) :
    dictGet l k = none ↔ k ∉ l.map Prod.fst := by
  induction l with
  | nil => simp [dictGet]
  | cons p t ih =>
    by_cases h : p.1 == k
    · have hk := eq_of_beq h
      simp [dictGet, h, hk]
    · have hne : p.1 ≠ k := fun hh => h (beq_iff_eq.mpr hh)
      rw [List.map_cons]
      constructor
      · intro hg hm
        rcases List.mem_cons.mp hm with hm | hm
        · exact hne hm.symm
        · exact (ih.mp (by simpa [dictGet, h] using hg)) hm
      · intro hm
        simp only [dictGet, h, Bool.false_eq_true, if_false]
        exact ih.mpr fun hh => hm (List.mem_cons.mpr (Or.inr hh))

theorem keys_dictSet (l : List (α × β)) (k : α) (v : β) :
    (dictSet l k v).map Prod.fst =
      if (dictGet l k).isSome then l.map Prod.fst else l.map Prod.fst ++ [k] := by
  induction l with
  | nil => simp [dictSet, dictGet]
  | cons p t ih =>
    by_cases h : p.1 == k
    · simp [dictSet, dictGet, h]
    · simp only [dictSet, dictGet, h, Bool.false_eq_true, if_false, List.map_cons, ih]
      by_cases hs : (dictGet t k).isSome
      · simp [hs]
      · simp [hs]

theorem nodupKeys_dictSet (l : List (α × β)) (k : α) (v : β)
    (h : (l.map Prod.fst).Nodup) : ((dictSet l k v).map Prod.fst).Nodup := by
  rw [keys_dictSet]
  by_cases hs : (dictGet l k).isSome
  · simpa [hs] using h
  · have hk : k ∉ l.map Prod.fst := by
      rw [← dictGet_eq_none_iff (l := l) (k := k)]
      exact Option.not_isSome_iff_eq_none.mp hs
    have hfalse : (dictGet l k).isSome = false := by
      rw [Option.not_isSome_iff_eq_none.mp hs]
      rfl
    rw [hfalse]
    simp only [Bool.false_eq_true, if_false]
    rw [List.nodup_append]
    refine ⟨h, List.nodup_singleton k, ?_⟩
    intro a ha hab
    rw [List.mem_singleton] at hab
    exact hk (hab ▸ ha)

theorem dictGet_dictMod_self (l : List (α × β)) (k : α) (f : β → β) :
    dictGet (dictMod l k f) k = (dictGet l k).map f := by
  induction l with
  | nil => simp [dictMod, dictGet]
  | cons p t ih =>
    simp only [dictMod, List.map_cons]
    by_cases h : p.1 == k
    · rw [if_pos h]
      simp [dictGet, h]
    · rw [if_neg h]
      simp only [dictGet, h, Bool.false_eq_true, if_false]
      simpa [dictMod] using ih

theorem dictGet_dictMod_ne (l : List (α × β)) (k : α) (f : β → β) (k' : α)
    (h : k' ≠ k) : dictGet (dictMod l k f) k' = dictGet l k' := by
  induction l with
  | nil => simp [dictMod, dictGet]
  | cons p t ih =>
    simp only [dictMod, List.map_cons]
    by_cases hp : p.1 == k
    · have hk : p.1 = k := eq_of_beq hp
      have hne : (p.1 == k') = false := by
        simp only [beq_eq_false_iff_ne]
        rw [hk]
        exact fun hh => h hh.symm
      rw [if_pos hp]
      simp only [dictGet, hne, Bool.false_eq_true, if_false]
      simpa [dictMod] using ih
    · rw [if_neg hp]
      by_cases hq : p.1 == k'
      · simp [dictGet, hq]
      · simp only [dictGet, hq, Bool.false_eq_true, if_false]
        simpa [dictMod] using ih

theorem dictGet_append (l₁ l₂ : List (α × β)) (k : α) :
    dictGet (l₁ ++ l₂) k = (dictGet l₁ k).or (dictGet l₂ k) := by
  induction l₁ with
  | nil => simp [dictGet]
  | cons p t ih =>
    by_cases h : p.1 == k
    · simp [dictGet, h]
    · simp [dictGet, h, ih]

theorem dictGet_unique_of_nodup (l : List (α × β)) (k : α) (v : β)
    (hnodup : (l.map Prod.fst).Nodup) (hget : dictGet l k = some v) :
    ∀ p ∈ l, p.1 = k → p.2 = v := by
  induction l with
  | nil => simp [dictGet] at hget
  | cons q t ih =>
    rw [List.map_cons, List.nodup_cons] at hnodup
    by_cases h : q.1 == k
    · have hk : q.1 = k := eq_of_beq h
      simp only [dictGet, h, if_true, Option.some.injEq] at hget
      intro p hp hpk
      rcases List.mem_cons.mp hp with hp | hp
      · rw [hp, hget]
      · exfalso
        apply hnodup.1
        rw [hk, ← hpk]
        exact List.mem_map_of_mem Prod.fst hp
    · simp only [dictGet, h, Bool.false_eq_true, if_false] at hget
      have hne : q.1 ≠ k := fun hh => h (beq_iff_eq.mpr hh)
      intro p hp hpk
      rcases List.mem_cons.mp hp with hp | hp
      · exact absurd (hp ▸ hpk) hne
      · exact ih hnodup.2 hget p hp hpk

theorem all_dictMod (l : List (α × β)) (k : α) (f : β → β) (q : α × β → Bool)
    (hall : l.all q = true)
    (hf : ∀ p ∈ l, p.1 == k → q (p.1, f p.2) = true) :
    (dictMod l k f).all q = true := by
  rw [dictMod, List.all_map, List.all_eq_true]
  intro p hp
  by_cases h : p.1 == k
  · simpa [Function.comp, h] using hf p hp h
  · have := List.all_eq_true.mp hall p hp
    simpa [Function.comp, h] using this

end DictLemmas

/-! ## Lemmas about the first-maximum fold (`max(..., key=...)`) -/

section MaxByLemmas

variable {α : Type}

theorem maxBy_mem (f : α → ℚ) (x : α) (t : List α) :
    t.foldl (fun acc y => if f acc < f y then y else acc) x ∈ x :: t := by
  induction t generalizing x with
  | nil => simp
  | cons y t ih =>
    simp only [List.foldl_cons]
    have h := ih (if f x < f y then y else x)
    rcases List.mem_cons.mp h with h' | h'
    · rw [h']
      by_cases hlt : f x < f y
      · simp [hlt]
      · simp [hlt]
    · simp [List.mem_cons.mpr (Or.inr (List.mem_cons.mpr (Or.inr h')))]

theorem maxBy_ge (f : α → ℚ) (x : α) (t : List α) :
    ∀ z ∈ x :: t, f z ≤ f (t.foldl (fun acc y => if f acc < f y then y else acc) x) := by
  induction t generalizing x with
  | nil =>
    intro z hz
    rcases List.mem_cons.mp hz with hz | hz
    · simp [hz, List.foldl_nil]
    · simp at hz
  | cons y t ih =>
    intro z hz
    simp only [List.foldl_cons]
    have hxy : f x ≤ f (if f x < f y then y else x) ∧ f y ≤ f (if f x < f y then y else x) := by
      by_cases hlt : f x < f y
      · rw [if_pos hlt]
        exact ⟨le_of_lt hlt, le_refl _⟩
      · rw [if_neg hlt]
        exact ⟨le_refl _, le_of_not_lt hlt⟩
    have hhead := ih (if f x < f y then y else x) _ (List.mem_cons_self _ _)
    rcases List.mem_cons.mp hz with hz' | hz'
    · calc f z = f x := by rw [hz']
        _ ≤ f (if f x < f y then y else x) := hxy.1
        _ ≤ _ := hhead
    · rcases List.mem_cons.mp hz' with hz'' | hz''
      · calc f z = f y := by rw [hz'']
          _ ≤ f (if f x < f y then y else x) := hxy.2
          _ ≤ _ := hhead
      · exact ih (if f x < f y then y else x) z (List.mem_cons.mpr (Or.inr hz''))

end MaxByLemmas

/-- `all_dictMod` when the updated value satisfies the predicate outright. -/
theorem all_dictMod_uncond {α β : Type} [BEq α] [LawfulBEq α] (l : List (α × β)) (k : α)
    (f : β → β) (q : α × β → Bool) (hall : l.all q = true)
    (hf : ∀ a b, q (a, f b) = true) : (dictMod l k f).all q = true :=
  all_dictMod l k f q hall fun p _ _ => hf p.1 p.2

/-! ## Claim C5 -/

/-- Modelled from the spec's words (§4.3 / Scenario E): a percentage position
coordinate is the percentage of the valid on-screen range for a window of the
resolved size, that is of `output size - window size` clamped at zero. -/
def specAxisPixel (outputLen windowLen : ℤ) (p : ℚ) : ℤ :=
  pyTrunc ((pyMax 0 (outputLen - windowLen) : ℤ) * p / 100)

/-- Claim C5: for a percentage position pair, the resolved pixel target on
each axis is the percentage of the valid on-screen range (output size minus
resolved window size), not of the raw output size; in particular `"50%,50%"`
with window 800x600 on a 1920x1080 output resolves to `(560, 240)`. -/
theorem C5_percentage_of_valid_range :
    (∀ (px py : ℚ) (ow oh ww wh : ℤ),
      convert_position_to_pixels (SizeVal.pct px, SizeVal.pct py) ow oh ww wh =
        (specAxisPixel ow ww px, specAxisPixel oh wh py)) ∧
    convert_position_to_pixels (SizeVal.pct 50, SizeVal.pct 50) 1920 1080 800 600 =
      (560, 240) ∧
    ((560 : ℤ), (240 : ℤ)) ≠ (960, 540) := by
  refine ⟨fun px py ow oh ww wh => rfl, ?_, by decide⟩
  show (pyTrunc ((pyMax 0 (1920 - 800) : ℤ) * (50 : ℚ) / 100),
        pyTrunc ((pyMax 0 (1080 - 600) : ℤ) * (50 : ℚ) / 100)) = (560, 240)
  have h1 : ((pyMax 0 (1920 - 800) : ℤ) : ℚ) * (50 : ℚ) / 100 = 560 := by
    norm_num [pyMax]
  have h2 : ((pyMax 0 (1080 - 600) : ℤ) : ℚ) * (50 : ℚ) / 100 = 240 := by
    norm_num [pyMax]
  rw [h1, h2]
  decide

/-! ## Claim C1 -/

/-- A concrete state in which scratchpad `"a"` is bound to window 5 in both
directions. -/
def C1state : DaemonState :=
  { scratchpads := [("a", ⟨some 5, true, 0⟩)]
    window_to_scratchpad := [(5, "a")] }

/-- Claim C1 counterexample: registering window 5 under the new name `"b"`
while `"a"` is currently bound to 5 does not clear `"a"`'s binding: `"a"`'s
forward `window_id` still points at 5 afterwards, so two names claim window 5
in the forward scratchpad map. -/
theorem C1_counterexample :
    C1state.get_scratchpad_for_window 5 = some "a" ∧
    dictGet (C1state.register_scratchpad_window "b" 5 1).scratchpads "a" =
      some ⟨some 5, true, 0⟩ ∧
    ((C1state.register_scratchpad_window "b" 5 1).scratchpads.filter
      fun p => p.2.window_id == some 5).length = 2 := by decide

/-- Claim C1 (amended): `register_scratchpad_window(name, w)` overwrites the
reverse-index entry for `w` — afterwards the reverse index maps `w` to `name`,
and reverse-index key uniqueness (at most one name per window id there) is
preserved — but it does not clear any prior name's forward binding: every
scratchpad entry other than `name`'s is left untouched. -/
theorem C1_register_overwrites_reverse_index (s : DaemonState) (name : String)
    (w : ℤ) (now : ℚ)
    (hnodup : (s.window_to_scratchpad.map Prod.fst).Nodup) :
    (s.register_scratchpad_window name w now).get_scratchpad_for_window w = some name ∧
    ((s.register_scratchpad_window name w now).window_to_scratchpad.map Prod.fst).Nodup ∧
    ∀ n, n ≠ name →
      dictGet (s.register_scratchpad_window name w now).scratchpads n =
        dictGet s.scratchpads n := by
  refine ⟨?_, ?_, ?_⟩
  · simpa [DaemonState.register_scratchpad_window, DaemonState.get_scratchpad_for_window]
      using dictGet_dictSet_self s.window_to_scratchpad w name
  · simpa [DaemonState.register_scratchpad_window]
      using nodupKeys_dictSet s.window_to_scratchpad w name hnodup
  · intro n hn
    simp only [DaemonState.register_scratchpad_window]
    by_cases hp : (dictGet s.scratchpads name).isSome
    · simp only [hp, if_true]
      exact dictGet_dictMod_ne _ name _ n hn
    · simp only [hp, Bool.false_eq_true, if_false]
      rw [dictGet_dictMod_ne _ name _ n hn, dictGet_append]
      have hone : dictGet [(name, ScratchpadState.init)] n = none := by
        have : (name == n) = false := beq_eq_false_iff_ne.mpr fun hh => hn hh.symm
        simp [dictGet, this]
      rw [hone]
      cases dictGet s.scratchpads n <;> rfl

/-- Witness for C1: evaluating the amended register behaviour on `C1state`. -/
theorem C1_register_overwrites_reverse_index_witness :
    (C1state.register_scratchpad_window "b" 5 1).get_scratchpad_for_window 5 = some "b" ∧
    ((C1state.register_scratchpad_window "b" 5 1).window_to_scratchpad.map Prod.fst).Nodup ∧
    dictGet (C1state.register_scratchpad_window "b" 5 1).scratchpads "a" =
      dictGet C1state.scratchpads "a" :=
  ⟨(C1_register_overwrites_reverse_index C1state "b" 5 1 (by decide)).1,
   (C1_register_overwrites_reverse_index C1state "b" 5 1 (by decide)).2.1,
   (C1_register_overwrites_reverse_index C1state "b" 5 1 (by decide)).2.2 "a" (by decide)⟩

/-! ## Claim C3 -/

/-- The invariant of claim C3 as a decidable check: a null window id forces a
false visibility flag, for every scratchpad entry. -/
def scratchInvB (s : DaemonState) : Bool :=
  s.scratchpads.all fun p => p.2.window_id.isSome || !p.2.visible

/-- Claim C3 counterexample: `mark_scratchpad_visible` on a name with no
scratchpad entry creates an entry with a null window id and a true visible
flag, so this state-store operation does not preserve the invariant. -/
theorem C3_counterexample :
    scratchInvB {} = true ∧
    scratchInvB (DaemonState.mark_scratchpad_visible {} "a" 1) = false := by decide

/-- One `reconcileStep` preserves the null-window/hidden invariant. -/
theorem scratchInvB_reconcileStep (s : DaemonState) (w : ℤ)
    (h : scratchInvB s = true) : scratchInvB (s.reconcileStep w) = true := by
  simp only [DaemonState.reconcileStep]
  split
  · split
    · simp only [scratchInvB]
      apply all_dictMod_uncond
      · exact h
      · intro a b
        simp
    · exact h
  · exact h

/-- Folding `reconcileStep` over any orphan list preserves the invariant. -/
theorem scratchInvB_foldl_reconcileStep (l : List ℤ) :
    ∀ s : DaemonState, scratchInvB s = true →
      scratchInvB (l.foldl DaemonState.reconcileStep s) = true := by
  induction l with
  | nil => exact fun s h => h
  | cons o rest ih => exact fun s h => ih _ (scratchInvB_reconcileStep s o h)

/-- Claim C3 (amended): register, unregister, mark-hidden and reconcile
preserve the invariant "null window id implies hidden" unconditionally;
mark-visible preserves it provided the named scratchpad entry exists and has
a non-null window id (the only way the daemon invokes it), but not in
general (see the counterexample). -/
theorem C3_invariant_preservation (s : DaemonState) (name : String) (w : ℤ)
    (now : ℚ) (ids : List ℤ)
    (h : scratchInvB s = true)
    (hnodup : (s.scratchpads.map Prod.fst).Nodup) :
    scratchInvB (s.register_scratchpad_window name w now) = true ∧
    scratchInvB (s.unregister_scratchpad_window w) = true ∧
    scratchInvB (s.mark_scratchpad_hidden name now) = true ∧
    scratchInvB (s.reconcile_with_windows ids).1 = true ∧
    (∀ st, dictGet s.scratchpads name = some st → st.window_id.isSome = true →
      scratchInvB (s.mark_scratchpad_visible name now) = true) := by
  have hens : ∀ l : List (String × ScratchpadState),
      (l.all fun p => p.2.window_id.isSome || !p.2.visible) = true →
      ((if (dictGet l name).isSome then l else l ++ [(name, ScratchpadState.init)]).all
        fun p => p.2.window_id.isSome || !p.2.visible) = true := by
    intro l hl
    by_cases hp : (dictGet l name).isSome
    · simpa [hp] using hl
    · rw [if_neg hp, List.all_append, Bool.and_eq_true]
      exact ⟨hl, rfl⟩
  refine ⟨?_, ?_, ?_, ?_, ?_⟩
  · simp only [DaemonState.register_scratchpad_window, scratchInvB]
    apply all_dictMod_uncond
    · exact hens s.scratchpads h
    · intro a b
      simp
  · simp only [DaemonState.unregister_scratchpad_window]
    split
    · split
      · split
        · simp only [scratchInvB]
          apply all_dictMod_uncond
          · exact h
          · intro a b
            simp
        · exact h
      · exact h
    · exact h
  · simp only [DaemonState.mark_scratchpad_hidden]
    split
    · simp only [scratchInvB]
      apply all_dictMod_uncond
      · exact h
      · intro a b
        simp
    · exact h
  · simp only [DaemonState.reconcile_with_windows]
    exact scratchInvB_foldl_reconcileStep _ s h
  · intro st hst hsome
    simp only [DaemonState.mark_scratchpad_visible, scratchInvB]
    apply all_dictMod
    · exact hens s.scratchpads h
    · intro p hp hpk
      have hpresent : (dictGet s.scratchpads name).isSome = true := by
        rw [hst]
        rfl
      rw [if_pos hpresent] at hp
      have hpv : p.2 = st :=
        dictGet_unique_of_nodup s.scratchpads name st hnodup hst p hp (eq_of_beq hpk)
      simp [hpv, hsome]

/-- A concrete state satisfying the invariant, for the C3 witness. -/
def C3wit : DaemonState :=
  { scratchpads := [("a", ⟨some 7, true, 3⟩), ("b", ⟨none, false, 1⟩)]
    window_to_scratchpad := [(7, "a")] }

/-- Witness for C3: the preservation theorem applied to a concrete state. -/
theorem C3_invariant_preservation_witness :
    scratchInvB (C3wit.register_scratchpad_window "b" 9 5) = true ∧
    scratchInvB (C3wit.unregister_scratchpad_window 7) = true ∧
    scratchInvB (C3wit.mark_scratchpad_hidden "a" 5) = true ∧
    scratchInvB (C3wit.reconcile_with_windows [7]).1 = true ∧
    scratchInvB (C3wit.mark_scratchpad_visible "a" 5) = true := by
  have hmain := C3_invariant_preservation C3wit "a" 7 5 [7] (by decide) (by decide)
  have hreg := (C3_invariant_preservation C3wit "b" 9 5 [7] (by decide) (by decide)).1
  exact ⟨hreg, hmain.2.1, hmain.2.2.1, hmain.2.2.2.1,
    hmain.2.2.2.2 ⟨some 7, true, 3⟩ (by decide) (by decide)⟩

/-! ## Claim C4 -/

/-- Modelled from the claim's words: the argmax of last-used over exactly the
entries whose backing window exists (is present in the windows map) and whose
visible flag is false. -/
def specMostRecentHidden (s : DaemonState) : Option String :=
  let candidates := s.scratchpads.filter fun p =>
    (match p.2.window_id with
     | some w => (dictGet s.windows w).isSome
     | none => false) && !p.2.visible
  match candidates with
  | [] => none
  | x :: t =>
    some (t.foldl (fun acc y => if acc.2.last_used < y.2.last_used then y else acc) x).1

/-- A state with a hidden scratchpad entry whose recorded window id 7 has no
window behind it (the windows map is empty). -/
def C4state : DaemonState := { scratchpads := [("a", ⟨some 7, false, 10⟩)] }

/-- Claim C4 counterexample: `get_most_recent_hidden_scratchpad` answers
`"a"` although no entry's backing window exists — its candidate filter checks
only that the window id is non-null, never the windows map, so it differs
from the claimed argmax (which answers nothing here). -/
theorem C4_counterexample :
    C4state.windows = [] ∧
    C4state.get_most_recent_hidden_scratchpad = some "a" ∧
    specMostRecentHidden C4state = none := by decide

/-- Claim C4 (amended): `get_most_recent_hidden_scratchpad` returns a name
with maximal last-used among exactly the entries with a non-null window id
and a false visible flag — without consulting the live windows map — and
returns nothing exactly when no such entry exists. -/
theorem C4_most_recent_hidden_characterisation (s : DaemonState) :
    (s.get_most_recent_hidden_scratchpad = none ↔
      (s.scratchpads.all fun p => !(p.2.window_id.isSome && !p.2.visible)) = true) ∧
    ∀ n, s.get_most_recent_hidden_scratchpad = some n →
      ∃ st, (n, st) ∈ s.scratchpads ∧ st.window_id.isSome = true ∧
        st.visible = false ∧
        ∀ p ∈ s.scratchpads, p.2.window_id.isSome = true → p.2.visible = false →
          p.2.last_used ≤ st.last_used := by
  constructor
  · simp only [DaemonState.get_most_recent_hidden_scratchpad]
    cases hc : s.scratchpads.filter fun p => p.2.window_id.isSome && !p.2.visible with
    | nil =>
      simp only [true_iff]
      have hfilter := List.filter_eq_nil_iff.mp hc
      rw [List.all_eq_true]
      intro p hp
      have := hfilter p hp
      simp only [Bool.not_eq_true] at this ⊢
      rw [this]
      rfl
    | cons x t =>
      simp only [reduceCtorEq, false_iff]
      intro hall
      have hx : x ∈ s.scratchpads.filter fun p => p.2.window_id.isSome && !p.2.visible := by
        rw [hc]
        exact List.mem_cons_self x t
      have hmem := List.mem_filter.mp hx
      have := List.all_eq_true.mp hall x hmem.1
      rw [hmem.2] at this
      simp at this
  · intro n hn
    simp only [DaemonState.get_most_recent_hidden_scratchpad] at hn
    cases hc : s.scratchpads.filter fun p => p.2.window_id.isSome && !p.2.visible with
    | nil => rw [hc] at hn; simp at hn
    | cons x t =>
      rw [hc] at hn
      simp only [Option.some.injEq] at hn
      set best := t.foldl (fun acc y => if acc.2.last_used < y.2.last_used then y else acc) x
        with hbest
      have hmemc : best ∈ x :: t := maxBy_mem (fun p => p.2.last_used) x t
      rw [← hc] at hmemc
      have hmem := List.mem_filter.mp hmemc
      have hpred := hmem.2
      rw [Bool.and_eq_true, Bool.not_eq_true'] at hpred
      refine ⟨best.2, ?_, hpred.1, hpred.2, ?_⟩
      · rw [← hn]
        exact hmem.1
      · intro p hp hw hv
        have hpc : p ∈ x :: t := by
          rw [← hc]
          exact List.mem_filter.mpr ⟨hp, by rw [hw, hv]; rfl⟩
        exact maxBy_ge (fun p => p.2.last_used) x t p hpc

/-! ## Claim C2 -/

/-- Setting an absent key appends the pair. -/
theorem dictSet_append_of_none {α β : Type} [BEq α] (l : List (α × β)) (k : α)
    (v : β) (h : dictGet l k = none) : dictSet l k v = l ++ [(k, v)] := by
  induction l with
  | nil => rfl
  | cons p t ih =>
    by_cases hp : p.1 == k
    · simp [dictGet, hp] at h
    · simp only [dictGet, hp, Bool.false_eq_true, if_false] at h
      simp only [dictSet, hp, Bool.false_eq_true, if_false, List.cons_append,
        List.cons.injEq, true_and]
      exact ih h

/-- Folding dict assignment over a key-distinct list disjoint from the
accumulator appends the list (the shape of `load_scratchpad_state`'s loops
over the persisted maps). -/
theorem foldl_dictSet_of_disjoint {α β : Type} [BEq α] [LawfulBEq α] :
    ∀ (l : List (α × β)) (acc : List (α × β)),
      (l.map Prod.fst).Nodup →
      (∀ k ∈ l.map Prod.fst, dictGet acc k = none) →
      l.foldl (fun a p => dictSet a p.1 p.2) acc = acc ++ l := by
  intro l
  induction l with
  | nil => intro acc _ _; simp
  | cons p t ih =>
    intro acc hn hd
    rw [List.map_cons, List.nodup_cons] at hn
    have hget : dictGet acc p.1 = none := hd p.1 (by simp)
    simp only [List.foldl_cons]
    rw [dictSet_append_of_none acc p.1 p.2 hget]
    rw [ih (acc ++ [p]) hn.2 ?_]
    · rw [List.append_assoc]
      rfl
    · intro k hk
      rw [dictGet_append]
      have h1 : dictGet acc k = none := hd k (List.mem_cons.mpr (Or.inr hk))
      have h2 : dictGet [p] k = none := by
        have : (p.1 == k) = false := beq_eq_false_iff_ne.mpr fun hh => hn.1 (hh ▸ hk)
        simp [dictGet, this]
      rw [h1, h2]
      rfl

/-- Folding dict assignment with a per-entry value transform is folding plain
dict assignment over the transformed list. -/
theorem foldl_dictSet_value_map {α β γ : Type} [BEq α] (gv : α × γ → β) :
    ∀ (l : List (α × γ)) (acc : List (α × β)),
      l.foldl (fun a p => dictSet a p.1 (gv p)) acc =
        (l.map fun p => (p.1, gv p)).foldl (fun a p => dictSet a p.1 p.2) acc := by
  intro l
  induction l with
  | nil => intro acc; rfl
  | cons p t ih =>
    intro acc
    simp only [List.foldl_cons, List.map_cons]
    exact ih _

/-- The save-then-load transform on the scratchpads map is the identity when
every entry has a window id (and only then is anything persisted). -/
theorem roundtrip_scratchpads (l : List (String × ScratchpadState))
    (hw : ∀ p ∈ l, p.2.window_id.isSome = true) :
    (l.filterMap fun p =>
      p.2.window_id.map fun w => (p.1, PersistedScratchpad.mk w p.2.visible p.2.last_used)).map
      (fun q => (q.1, ScratchpadState.mk (some q.2.window_id) q.2.visible q.2.last_used)) = l := by
  induction l with
  | nil => rfl
  | cons p t ih =>
    obtain ⟨n, wid, vis, lu⟩ := p
    have hp := hw (n, ⟨wid, vis, lu⟩) (List.mem_cons_self _ _)
    cases wid with
    | none => simp at hp
    | some w =>
      simp only [List.filterMap_cons, Option.map_some', List.map_cons]
      rw [ih fun q hq => hw q (List.mem_cons.mpr (Or.inr hq))]

/-- A state whose only scratchpad entry has a null window id: exactly what
`save_scratchpad_state` skips. -/
def C2state : DaemonState := { scratchpads := [("a", ⟨none, false, 5⟩)] }

/-- Claim C2 counterexample: saving a state that contains a cleared entry
(null window id) and loading it back under the same session identifier does
not reproduce an identical scratchpads map — the cleared entry is dropped by
the save filter. -/
theorem C2_counterexample :
    (DaemonState.load_scratchpad_state {} (some "sess")
        (C2state.save_scratchpad_state (some "sess") none)).1 = true ∧
    (DaemonState.load_scratchpad_state {} (some "sess")
        (C2state.save_scratchpad_state (some "sess") none)).2.1.scratchpads ≠
      C2state.scratchpads := by decide

/-- Claim C2 (amended): when every scratchpad entry has a non-null window id,
saving and reloading under the same session identifier reproduces identical
`scratchpads` and `window_to_scratchpad` maps in a fresh store; loading under
a different session identifier restores nothing, leaves the fresh store
empty, and deletes the stale state file. -/
theorem C2_roundtrip (s : DaemonState) (sid : String) (f0 : Option PersistedState)
    (hw : ∀ p ∈ s.scratchpads, p.2.window_id.isSome = true)
    (hn1 : (s.scratchpads.map Prod.fst).Nodup)
    (hn2 : (s.window_to_scratchpad.map Prod.fst).Nodup) :
    ((DaemonState.load_scratchpad_state {} (some sid)
        (s.save_scratchpad_state (some sid) f0)).1 = true ∧
     (DaemonState.load_scratchpad_state {} (some sid)
        (s.save_scratchpad_state (some sid) f0)).2.1.scratchpads = s.scratchpads ∧
     (DaemonState.load_scratchpad_state {} (some sid)
        (s.save_scratchpad_state (some sid) f0)).2.1.window_to_scratchpad =
       s.window_to_scratchpad) ∧
    (∀ (sid' : String) (f : PersistedState), f.niri_session ≠ sid' →
      DaemonState.load_scratchpad_state {} (some sid') (some f) = (false, {}, none)) := by
  constructor
  · simp only [DaemonState.save_scratchpad_state, DaemonState.load_scratchpad_state,
      bne_self_eq_false, Bool.false_eq_true, if_false]
    refine ⟨trivial, ?_, ?_⟩
    · show (s.scratchpads.filterMap fun p =>
          p.2.window_id.map fun w => (p.1, PersistedScratchpad.mk w p.2.visible p.2.last_used)).foldl
          (fun acc p => dictSet acc p.1 ⟨some p.2.window_id, p.2.visible, p.2.last_used⟩) [] =
        s.scratchpads
      rw [foldl_dictSet_value_map]
      rw [roundtrip_scratchpads s.scratchpads hw]
      simpa using foldl_dictSet_of_disjoint s.scratchpads [] hn1 (by intro k _; rfl)
    · show s.window_to_scratchpad.foldl (fun acc p => dictSet acc p.1 p.2) [] =
        s.window_to_scratchpad
      simpa using foldl_dictSet_of_disjoint s.window_to_scratchpad [] hn2 (by intro k _; rfl)
  · intro sid' f hne
    simp only [DaemonState.load_scratchpad_state]
    have : (f.niri_session != sid') = true := bne_iff_ne.mpr hne
    rw [this]
    rfl

/-- A fully-backed state for the C2 witness. -/
def C2wit : DaemonState :=
  { scratchpads := [("a", ⟨some 5, true, 2⟩), ("b", ⟨some 6, false, 3⟩)]
    window_to_scratchpad := [(5, "a"), (6, "b")] }

/-- Witness for C2: the round trip evaluated on a concrete state, and a
session mismatch on a concrete stale file. -/
theorem C2_roundtrip_witness :
    (DaemonState.load_scratchpad_state {} (some "sess")
        (C2wit.save_scratchpad_state (some "sess") none)).2.1.scratchpads =
      C2wit.scratchpads ∧
    DaemonState.load_scratchpad_state {} (some "other")
        (some ⟨"sess", [], []⟩) = (false, {}, none) :=
  ⟨(C2_roundtrip C2wit "sess" none (by decide) (by decide) (by decide)).1.2.1,
   (C2_roundtrip C2wit "sess" none (by decide) (by decide) (by decide)).2 "other"
     ⟨"sess", [], []⟩ (by decide)⟩

/-- A state for the C4 witness: two hidden entries with window ids, the more
recently used one being `"b"`. -/
def C4wit : DaemonState :=
  { scratchpads := [("a", ⟨some 7, false, 10⟩), ("b", ⟨some 8, false, 20⟩)] }

/-- Witness for C4: the characterisation applied to concrete states. -/
theorem C4_most_recent_hidden_witness :
    DaemonState.get_most_recent_hidden_scratchpad
      { scratchpads := [("a", ⟨some 7, true, 3⟩)] } = none ∧
    C4wit.get_most_recent_hidden_scratchpad = some "b" :=
  ⟨(C4_most_recent_hidden_characterisation _).1.mpr (by decide), by decide⟩

/-! ## Claim C7 -/

/-- A fixed environment with inert picker and regex oracles, used by the
concrete witnesses. -/
def env0 : Env :=
  { now := 0
    search := fun _ _ => false
    onScratchWs := fun _ _ => false
    rofiAdopt := fun _ => none
    rofiConfirm := fun _ => false
    menuOutcome := fun _ => (1, none)
    status := ⟨1, "daemon", 0, "niri", "sock"⟩ }

/-- Claim C7: calling `toggle(name)` on a scratchpad with no backing window
and no configured launch command leaves the daemon state unchanged and issues
no action. -/
theorem C7_toggle_absent_noop (env : Env) (s : DaemonState) (name : String)
    (c : ScratchpadConfig)
    (hc : dictGet s.scratchpad_configs name = some c)
    (hcmd : c.command = none)
    (habs : (dictGet s.scratchpads name).bind (fun st => st.window_id) = none) :
    Manager.toggle env s name = (s, []) := by
  simp [Manager.toggle, hc, habs, hcmd, truthyL]

/-- A state with one configured, never-spawned scratchpad without a command. -/
def C7wit : DaemonState := { scratchpad_configs := [("term", { name := "term" })] }

/-- Witness for C7: the no-op evaluated on a concrete state. -/
theorem C7_toggle_absent_noop_witness :
    Manager.toggle env0 C7wit "term" = (C7wit, []) :=
  C7_toggle_absent_noop env0 C7wit "term" { name := "term" } (by decide) rfl rfl

/-! ## Claim C9 -/

/-- The `cmd` values `_dispatch_command` recognises. -/
def recognizedCmds : List String :=
  ["toggle", "hide", "adopt", "disown", "menu", "close", "toggle-float", "float",
   "tile", "restart", "stop", "status"]

/-- Claim C9: a well-formed command object whose `cmd` is not one of the
recognised values produces no response and leaves the daemon state unchanged,
with no action issued. -/
theorem C9_unknown_command_noop (env : Env) (s : DaemonState) (c : CommandMsg)
    (h : ∀ x ∈ recognizedCmds, c.cmd ≠ some x) :
    dispatch_command env s c = (s, [], none) := by
  have hb : ∀ x, x ∈ recognizedCmds → (c.cmd == some x) = false := fun x hx =>
    beq_eq_false_iff_ne.mpr (h x hx)
  simp only [dispatch_command,
    hb "toggle" (by simp [recognizedCmds]), hb "hide" (by simp [recognizedCmds]),
    hb "adopt" (by simp [recognizedCmds]), hb "disown" (by simp [recognizedCmds]),
    hb "menu" (by simp [recognizedCmds]), hb "close" (by simp [recognizedCmds]),
    hb "toggle-float" (by simp [recognizedCmds]), hb "float" (by simp [recognizedCmds]),
    hb "tile" (by simp [recognizedCmds]), hb "restart" (by simp [recognizedCmds]),
    hb "stop" (by simp [recognizedCmds]), hb "status" (by simp [recognizedCmds]),
    Bool.false_eq_true, if_false]

/-- Witness for C9: an unrecognised command evaluated concretely. -/
theorem C9_unknown_command_noop_witness :
    dispatch_command env0 {} ⟨some "frobnicate", none, none, true⟩ = ({}, [], none) :=
  C9_unknown_command_noop env0 {} ⟨some "frobnicate", none, none, true⟩ (by decide)

/-! ## Claim C10 -/

/-- Character-list prefix test. -/
def charPrefix : List Char → List Char → Bool
  | [], _ => true
  | _ :: _, [] => false
  | a :: as, b :: bs => a == b && charPrefix as bs

/-- Character-list substring test. -/
def charInfix (p : List Char) : List Char → Bool
  | [] => p.isEmpty
  | b :: bs => charPrefix p (b :: bs) || charInfix p bs

/-- Python `re.search` restricted to literal patterns (the only patterns the
C10 instances exercise): substring containment, truthiness of the match. -/
def litSearch (pat str : String) : Bool := charInfix pat.data str.data

/-- A config with a literal app-id rule and a title regex together, and a
window matching the app id but not the title regex. -/
def C10config : ScratchpadConfig := { name := "x", app_id := some "foo", title := some "/bar" }

/-- The window for the C10 counterexample. -/
def C10window : WindowInfo := { id := 1, app_id := "foo", title := "nope" }

/-- Claim C10 counterexample: a title regex is present (`"/bar"` compiles to
pattern `"bar"`) and does not match the window title, yet the window matches
the scratchpad via the higher-priority literal app-id equality — so the match
decision is not made solely by the regex dimension, and lower-priority rules
being skipped only holds below the regex dimension, not above it. -/
theorem C10_counterexample :
    C10config.titleRegex = some "bar" ∧
    litSearch "bar" "nope" = false ∧
    matchesConfig litSearch C10window C10config = true := by decide

/-- Claim C10 (amended): a configured `app_id`/`title` beginning with `"/"`
is compiled as a regex over the remainder.  When an app-id regex is present,
the decision is solely its regex search on the window's app id (literal
equality and lower-priority rules never consulted, even when it fails); when
a title regex is present and no app-id rule is configured, the decision is
solely its regex search on the title (literal title equality never
consulted). -/
theorem C10_regex_dimension (search : String → String → Bool) (w : WindowInfo)
    (c : ScratchpadConfig) :
    (∀ str, c.app_id = some str → startsWithSlash str = true → str ≠ "" →
      matchesConfig search w c = search (str.drop 1) w.app_id) ∧
    (∀ str, c.title = some str → startsWithSlash str = true → str ≠ "" →
      truthyS c.app_id = false →
      matchesConfig search w c = search (str.drop 1) w.title) := by
  constructor
  · intro str ha hsw hne
    have hreg : c.appIdRegex = some (str.drop 1) := by
      simp [ScratchpadConfig.appIdRegex, ha, truthyS, hsw, hne]
    simp [matchesConfig, hreg]
  · intro str ht hsw hne happ
    have hregA : c.appIdRegex = none := by
      cases hA : c.app_id with
      | none => simp [ScratchpadConfig.appIdRegex, hA]
      | some sa =>
        rw [hA] at happ
        simp [ScratchpadConfig.appIdRegex, hA, happ]
    have hregT : c.titleRegex = some (str.drop 1) := by
      simp [ScratchpadConfig.titleRegex, ht, truthyS, hsw, hne]
    simp [matchesConfig, hregA, hregT, happ]

/-! ## Claim C6 -/

/-- The lazily-created scratchpad entry lookup performed by both `register`
and `mark_visible` (`if name not in self.scratchpads: ... = ScratchpadState()`). -/
theorem dictGet_ensure (l : List (String × ScratchpadState)) (k : String) :
    dictGet (if (dictGet l k).isSome then l else l ++ [(k, ScratchpadState.init)]) k =
      some ((dictGet l k).getD ScratchpadState.init) := by
  by_cases h : (dictGet l k).isSome
  · rw [if_pos h]
    obtain ⟨v, hv⟩ := Option.isSome_iff_exists.mp h
    rw [hv]
    rfl
  · rw [if_neg h, dictGet_append, Option.not_isSome_iff_eq_none.mp h]
    simp [dictGet]

/-- The scratchpad entry after `register_scratchpad_window` has the new
window id stamped. -/
theorem register_scratchpads_get (s : DaemonState) (name : String) (wid : ℤ)
    (now : ℚ) :
    dictGet (s.register_scratchpad_window name wid now).scratchpads name =
      some { (dictGet s.scratchpads name).getD ScratchpadState.init with
             window_id := some wid, last_used := now } := by
  simp only [DaemonState.register_scratchpad_window]
  rw [dictGet_dictMod_self, dictGet_ensure]
  rfl

/-- The scratchpad entry after `mark_scratchpad_visible` keeps its window id. -/
theorem mark_visible_scratchpads_get (s : DaemonState) (name : String) (now : ℚ) :
    dictGet (s.mark_scratchpad_visible name now).scratchpads name =
      some { (dictGet s.scratchpads name).getD ScratchpadState.init with
             visible := true, last_used := now } := by
  simp only [DaemonState.mark_scratchpad_visible]
  rw [dictGet_dictMod_self, dictGet_ensure]
  rfl

/-- Modelled from the claim's words: the match rule evaluated in the fixed
priority order — app-id regex search, else exact app-id equality, else title
regex search, else exact title equality. -/
def specMatchPriority (search : String → String → Bool) (w : WindowInfo)
    (c : ScratchpadConfig) : Bool :=
  if c.appIdRegex.isSome then search (c.appIdRegex.getD "") w.app_id
  else if truthyS c.app_id then w.app_id == c.app_id.getD ""
  else if c.titleRegex.isSome then search (c.titleRegex.getD "") w.title
  else if truthyS c.title then w.title == c.title.getD ""
  else false

/-- Modelled from the claim's words: the first pending name, in pending-set
iteration order, whose configured rule matches the window. -/
def firstPendingMatch (env : Env) (s : DaemonState) (w : WindowInfo) : Option String :=
  s.pending_spawns.find? fun n =>
    match dictGet s.scratchpad_configs n with
    | some c => matchesConfig env.search w c
    | none => false

/-- The loop of `handle_window_opened` registers exactly the first matching
pending name of its snapshot and consumes its pending entry. -/
theorem handleGo_first_match (env : Env) (w : WindowInfo) :
    ∀ (snapshot : List String) (s : DaemonState) (n : String),
      (snapshot.find? fun nm =>
        match dictGet s.scratchpad_configs nm with
        | some c => matchesConfig env.search w c
        | none => false) = some n →
      n ∈ s.pending_spawns →
      s.pending_spawns.Nodup →
      n ∉ (Manager.handleWindowOpenedGo env w snapshot s).1.pending_spawns ∧
      dictGet (Manager.handleWindowOpenedGo env w snapshot s).1.window_to_scratchpad
        w.id = some n ∧
      ((dictGet (Manager.handleWindowOpenedGo env w snapshot s).1.scratchpads n).map
        fun st => st.window_id) = some (some w.id) := by
  intro snapshot
  induction snapshot with
  | nil =>
    intro s n hfind _ _
    simp [List.find?] at hfind
  | cons name rest ih =>
    intro s n hfind hmem hnodup
    cases hc : dictGet s.scratchpad_configs name with
    | none =>
      have hpred : (match dictGet s.scratchpad_configs name with
          | some c => matchesConfig env.search w c
          | none => false) = false := by rw [hc]
      rw [List.find?_cons_of_neg _ (by rw [hpred]; exact Bool.false_ne_true)] at hfind
      have hne : n ≠ name := by
        intro he
        have := List.find?_some hfind
        rw [he, hpred] at this
        exact Bool.false_ne_true this
      simp only [Manager.handleWindowOpenedGo, hc]
      exact ih { s with pending_spawns := s.pending_spawns.erase name } n hfind
        ((List.mem_erase_of_ne hne).mpr hmem) (hnodup.erase name)
    | some config =>
      by_cases hm : matchesConfig env.search w config = true
      · have hpred : (match dictGet s.scratchpad_configs name with
            | some c => matchesConfig env.search w c
            | none => false) = true := by rw [hc]; exact hm
        rw [List.find?_cons_of_pos _ (by rw [hpred])] at hfind
        have hn : n = name := by
          have := Option.some.inj hfind
          rw [this]
        subst hn
        simp only [Manager.handleWindowOpenedGo, hc, hm, if_true]
        refine ⟨?_, ?_, ?_⟩
        · show n ∉ ((({ s with pending_spawns := s.pending_spawns.erase n
            } : DaemonState).register_scratchpad_window n w.id
              env.now).mark_scratchpad_visible n env.now).pending_spawns
          show n ∉ s.pending_spawns.erase n
          exact hnodup.not_mem_erase
        · show dictGet (dictSet s.window_to_scratchpad w.id n) w.id = some n
          exact dictGet_dictSet_self _ _ _
        · rw [mark_visible_scratchpads_get, register_scratchpads_get]
          rfl
      · have hpred : (match dictGet s.scratchpad_configs name with
            | some c => matchesConfig env.search w c
            | none => false) = false := by
          rw [hc]
          exact Bool.not_eq_true _ ▸ (by simpa using hm)
        rw [List.find?_cons_of_neg _ (by rw [hpred]; exact Bool.false_ne_true)] at hfind
        simp only [Manager.handleWindowOpenedGo, hc, hm, Bool.false_eq_true, if_false]
        exact ih s n hfind hmem hnodup

/-- Claim C6: the match rule is evaluated in the fixed priority order (app-id
regex, else app-id equality, else title regex, else title equality), and the
first pending name whose rule matches a newly opened window wins: it is
removed from the pending-spawn set and registered to the window. -/
theorem C6_first_pending_match (env : Env) (s : DaemonState) (w : WindowInfo)
    (n : String)
    (hfind : firstPendingMatch env s w = some n)
    (hnodup : s.pending_spawns.Nodup) :
    (∀ c : ScratchpadConfig,
      matchesConfig env.search w c = specMatchPriority env.search w c) ∧
    n ∉ (Manager.handle_window_opened env s w).1.pending_spawns ∧
    dictGet (Manager.handle_window_opened env s w).1.window_to_scratchpad w.id =
      some n ∧
    ((dictGet (Manager.handle_window_opened env s w).1.scratchpads n).map
      fun st => st.window_id) = some (some w.id) := by
  constructor
  · intro c
    unfold matchesConfig specMatchPriority
    cases ha : c.appIdRegex with
    | some pa => simp [ha]
    | none =>
      cases ht : c.titleRegex with
      | some pt => simp [ha, ht]
      | none => simp [ha, ht]
  · have hmem : n ∈ s.pending_spawns := List.mem_of_find?_eq_some hfind
    exact handleGo_first_match env w s.pending_spawns s n hfind hmem hnodup

/-- A state with two pending spawns where only the second one's rule matches
the opened window, for the C6 witness. -/
def C6wit : DaemonState :=
  { pending_spawns := ["term", "notes"]
    scratchpad_configs :=
      [("term", { name := "term", app_id := some "alacritty" }),
       ("notes", { name := "notes", app_id := some "obsidian" })] }

/-- The window opened in the C6 witness. -/
def C6window : WindowInfo := { id := 42, app_id := "obsidian", title := "t" }

/-- Witness for C6: the first (and here only) matching pending name `"notes"`
is consumed and registered for the concrete window. -/
theorem C6_first_pending_match_witness :
    "notes" ∉ (Manager.handle_window_opened env0 C6wit C6window).1.pending_spawns ∧
    dictGet (Manager.handle_window_opened env0 C6wit C6window).1.window_to_scratchpad
      42 = some "notes" := by
  have h := C6_first_pending_match env0 C6wit C6window "notes" (by decide) (by decide)
  exact ⟨h.2.1, h.2.2.1⟩

/-! ## Claim C8 -/

/-- The number of files not yet visited: the loader's termination measure. -/
def unvisitedCount (fs : ConfigFS) (visited : List String) : ℕ :=
  ((fs.files.map Prod.fst).filter fun p => !visited.contains p).length

theorem filter_length_mono {α : Type} (l : List α) (p q : α → Bool)
    (h : ∀ a, p a = true → q a = true) :
    (l.filter p).length ≤ (l.filter q).length := by
  induction l with
  | nil => simp
  | cons a t ih =>
    rw [List.filter_cons, List.filter_cons]
    by_cases hp : p a = true
    · rw [if_pos hp, if_pos (h a hp)]
      simpa using ih
    · rw [if_neg hp]
      by_cases hq : q a = true
      · rw [if_pos hq]
        exact le_trans ih (by simp)
      · rw [if_neg hq]
        exact ih

theorem filter_length_lt {α : Type} (l : List α) (p q : α → Bool)
    (h : ∀ a, p a = true → q a = true) (a₀ : α) (ha : a₀ ∈ l)
    (hpa : p a₀ = false) (hqa : q a₀ = true) :
    (l.filter p).length < (l.filter q).length := by
  induction l with
  | nil => simp at ha
  | cons b t ih =>
    rw [List.filter_cons, List.filter_cons]
    rcases List.mem_cons.mp ha with hb | hb
    · rw [← hb]
      rw [if_neg (by rw [hpa]; exact Bool.false_ne_true), if_pos hqa]
      exact Nat.lt_succ_of_le (filter_length_mono t p q h)
    · by_cases hpb : p b = true
      · rw [if_pos hpb, if_pos (h b hpb)]
        simpa using ih hb
      · rw [if_neg hpb]
        by_cases hqb : q b = true
        · rw [if_pos hqb]
          rw [List.length_cons]
          exact Nat.lt_succ_of_lt (ih hb)
        · rw [if_neg hqb]
          exact ih hb

/-- Python `in` over the visited set. -/
theorem containsStr_iff (l : List String) (a : String) : l.contains a = true ↔ a ∈ l :=
  List.elem_iff

theorem containsStr_false (l : List String) (a : String) (h : a ∉ l) :
    l.contains a = false := by
  rcases hc : l.contains a with _ | _
  · rfl
  · exact absurd ((containsStr_iff l a).mp hc) h

theorem unvisitedCount_mono (fs : ConfigFS) (v v' : List String)
    (h : ∀ x ∈ v, x ∈ v') : unvisitedCount fs v' ≤ unvisitedCount fs v := by
  apply filter_length_mono
  intro a hp
  rw [Bool.not_eq_true'] at hp ⊢
  apply containsStr_false
  intro hav
  rw [(containsStr_iff v' a).mpr (h a hav)] at hp
  simp at hp

theorem unvisitedCount_cons_lt (fs : ConfigFS) (v : List String) (k : String)
    (hk : k ∈ fs.files.map Prod.fst) (hv : k ∉ v) :
    unvisitedCount fs (k :: v) < unvisitedCount fs v := by
  refine filter_length_lt _ _ _ ?_ k hk ?_ ?_
  · intro a hp
    rw [Bool.not_eq_true'] at hp ⊢
    apply containsStr_false
    intro hav
    rw [(containsStr_iff (k :: v) a).mpr (List.mem_cons_of_mem k hav)] at hp
    simp at hp
  · rw [Bool.not_eq_false']
    exact (containsStr_iff (k :: v) k).mpr (List.mem_cons_self k v)
  · rw [Bool.not_eq_true']
    exact containsStr_false v k hv

/-- What one loader call does to the shared accumulators: the visited set only
grows, and the loaded-files log is extended by fresh paths — pairwise
distinct, not previously visited, and all visited afterwards. -/
def loadInv (acc acc' : LoadAcc) : Prop :=
  (∀ x ∈ acc.visited, x ∈ acc'.visited) ∧
  ∃ new, acc'.loaded = acc.loaded ++ new ∧ new.Nodup ∧
    ∀ p ∈ new, p ∉ acc.visited ∧ p ∈ acc'.visited

theorem loadInv_refl (acc : LoadAcc) : loadInv acc acc :=
  ⟨fun x hx => hx, [], by simp, List.nodup_nil, by simp⟩

theorem loadInv_of_eq {acc acc' : LoadAcc} (hv : acc'.visited = acc.visited)
    (hl : acc'.loaded = acc.loaded) : loadInv acc acc' :=
  ⟨fun x hx => hv ▸ hx, [], by simp [hl], List.nodup_nil, by simp⟩

theorem loadInv_trans {a b c : LoadAcc} (h₁ : loadInv a b) (h₂ : loadInv b c) :
    loadInv a c := by
  obtain ⟨hv₁, new₁, hl₁, hn₁, hp₁⟩ := h₁
  obtain ⟨hv₂, new₂, hl₂, hn₂, hp₂⟩ := h₂
  refine ⟨fun x hx => hv₂ x (hv₁ x hx), new₁ ++ new₂, ?_, ?_, ?_⟩
  · rw [hl₂, hl₁, List.append_assoc]
  · rw [List.nodup_append]
    refine ⟨hn₁, hn₂, ?_⟩
    intro p hp hpq
    exact (hp₂ p hpq).1 (hp₁ p hp).2
  · intro p hp
    rcases List.mem_append.mp hp with hp | hp
    · exact ⟨(hp₁ p hp).1, hv₂ p (hp₁ p hp).2⟩
    · refine ⟨fun hav => (hp₂ p hp).1 (hv₁ p hav), (hp₂ p hp).2⟩

/-- Joint invariants of the loader recursion: every successful call only
grows the visited set and appends fresh, distinct, then-visited paths to the
loaded-files log. -/
theorem load_invariants (fs : ConfigFS) :
    ∀ fuel : ℕ,
      (∀ path acc r acc',
        loadConfigRec fs fuel path acc = some (r, acc') → loadInv acc acc') ∧
      (∀ incs path res acc r acc',
        loadIncludes fs fuel path incs res acc = some (r, acc') → loadInv acc acc') := by
  intro fuel
  induction fuel with
  | zero =>
    constructor
    · intro path acc r acc' h
      simp [loadConfigRec] at h
    · intro incs
      induction incs with
      | nil =>
        intro path res acc r acc' h
        simp only [loadIncludes, Option.some.injEq, Prod.mk.injEq] at h
        exact loadInv_of_eq (by rw [← h.2]) (by rw [← h.2])
      | cons inc rest ihr =>
        intro path res acc r acc' h
        simp only [loadIncludes] at h
        by_cases hm : (dictGet fs.files (fs.resolve (fs.join path inc))).isNone = true
        · rw [if_pos hm] at h
          have h2 := ihr path res
            { acc with warnings := acc.warnings ++
                ["Include file not found: " ++ fs.resolve (fs.join path inc)] } r acc' h
          exact loadInv_trans (loadInv_of_eq rfl rfl) h2
        · rw [if_neg hm] at h
          rw [show loadConfigRec fs 0 (fs.resolve (fs.join path inc)) acc = none by
            simp [loadConfigRec]] at h
          simp at h
  | succ fuel' ih =>
    have A : ∀ path acc r acc',
        loadConfigRec fs (fuel' + 1) path acc = some (r, acc') → loadInv acc acc' := by
      intro path acc r acc' h
      simp only [loadConfigRec] at h
      by_cases hv : acc.visited.contains (fs.resolve path) = true
      · rw [if_pos hv] at h
        simp only [Option.some.injEq, Prod.mk.injEq] at h
        exact loadInv_of_eq (by rw [← h.2]) (by rw [← h.2])
      · rw [if_neg hv] at h
        cases hg : dictGet fs.files (fs.resolve path) with
        | none =>
          rw [hg] at h
          simp only [Option.some.injEq, Prod.mk.injEq] at h
          exact loadInv_of_eq (by rw [← h.2]) (by rw [← h.2])
        | some cfg =>
          rw [hg] at h
          dsimp only at h
          have hstep : loadInv acc
              { acc with visited := fs.resolve path :: acc.visited,
                         loaded := acc.loaded ++ [fs.resolve path] } := by
            refine ⟨fun x hx => List.mem_cons_of_mem _ hx,
              [fs.resolve path], rfl, List.nodup_singleton _, ?_⟩
            intro p hp
            rw [List.mem_singleton] at hp
            subst hp
            constructor
            · intro hmem
              rw [(containsStr_iff _ _).mpr hmem] at hv
              exact hv rfl
            · exact List.mem_cons_self _ _
          by_cases he : cfg.empty = true
          · rw [if_pos he] at h
            simp only [Option.some.injEq, Prod.mk.injEq] at h
            exact h.2 ▸ hstep
          · rw [if_neg he] at h
            cases hi : loadIncludes fs fuel' (fs.resolve path) cfg.includes RawConfig.init
                { acc with visited := fs.resolve path :: acc.visited,
                           loaded := acc.loaded ++ [fs.resolve path] } with
            | none => rw [hi] at h; simp at h
            | some pair =>
              obtain ⟨res3, acc3⟩ := pair
              rw [hi] at h
              simp only [Option.some.injEq, Prod.mk.injEq] at h
              exact h.2 ▸ loadInv_trans hstep
                (ih.2 cfg.includes (fs.resolve path) RawConfig.init _ res3 acc3 hi)
    refine ⟨A, ?_⟩
    intro incs
    induction incs with
    | nil =>
      intro path res acc r acc' h
      simp only [loadIncludes, Option.some.injEq, Prod.mk.injEq] at h
      exact loadInv_of_eq (by rw [← h.2]) (by rw [← h.2])
    | cons inc rest ihr =>
      intro path res acc r acc' h
      simp only [loadIncludes] at h
      by_cases hm : (dictGet fs.files (fs.resolve (fs.join path inc))).isNone = true
      · rw [if_pos hm] at h
        have h2 := ihr path res
          { acc with warnings := acc.warnings ++
              ["Include file not found: " ++ fs.resolve (fs.join path inc)] } r acc' h
        exact loadInv_trans (loadInv_of_eq rfl rfl) h2
      · rw [if_neg hm] at h
        cases hc : loadConfigRec fs (fuel' + 1) (fs.resolve (fs.join path inc)) acc with
        | none => rw [hc] at h; simp at h
        | some pair =>
          obtain ⟨childRes, accc⟩ := pair
          rw [hc] at h
          exact loadInv_trans (A _ _ _ _ hc) (ihr path (mergeChild res childRes) accc r acc' h)

/-- The loader never exhausts a fuel budget exceeding the number of unvisited
files: the real recursion terminates with depth bounded by the file count. -/
theorem load_no_exhaustion (fs : ConfigFS) :
    ∀ fuel : ℕ,
      (∀ path acc, unvisitedCount fs acc.visited + 1 ≤ fuel →
        loadConfigRec fs fuel path acc ≠ none) ∧
      (∀ incs path res acc, unvisitedCount fs acc.visited + 1 ≤ fuel →
        loadIncludes fs fuel path incs res acc ≠ none) := by
  intro fuel
  induction fuel with
  | zero =>
    exact ⟨fun path acc hb => absurd hb (by omega),
           fun incs path res acc hb => absurd hb (by omega)⟩
  | succ fuel' ih =>
    have A : ∀ path acc, unvisitedCount fs acc.visited + 1 ≤ fuel' + 1 →
        loadConfigRec fs (fuel' + 1) path acc ≠ none := by
      intro path acc hb
      simp only [loadConfigRec]
      by_cases hv : acc.visited.contains (fs.resolve path) = true
      · rw [if_pos hv]
        simp
      · rw [if_neg hv]
        cases hg : dictGet fs.files (fs.resolve path) with
        | none => simp
        | some cfg =>
          dsimp only
          by_cases he : cfg.empty = true
          · rw [if_pos he]
            simp
          · rw [if_neg he]
            have hmem : fs.resolve path ∈ fs.files.map Prod.fst := by
              by_contra hnm
              rw [(dictGet_eq_none_iff fs.files (fs.resolve path)).mpr hnm] at hg
              cases hg
            have hnv : fs.resolve path ∉ acc.visited := fun hmem' =>
              hv ((containsStr_iff _ _).mpr hmem')
            have hlt := unvisitedCount_cons_lt fs acc.visited (fs.resolve path) hmem hnv
            have hb2 : unvisitedCount fs (fs.resolve path :: acc.visited) + 1 ≤ fuel' := by
              omega
            have hne := ih.2 cfg.includes (fs.resolve path) RawConfig.init
              { acc with visited := fs.resolve path :: acc.visited,
                         loaded := acc.loaded ++ [fs.resolve path] } hb2
            cases hi : loadIncludes fs fuel' (fs.resolve path) cfg.includes RawConfig.init
                { acc with visited := fs.resolve path :: acc.visited,
                           loaded := acc.loaded ++ [fs.resolve path] } with
            | none => exact absurd hi hne
            | some pair =>
              obtain ⟨r3, a3⟩ := pair
              simp
    refine ⟨A, ?_⟩
    intro incs
    induction incs with
    | nil =>
      intro path res acc hb
      simp [loadIncludes]
    | cons inc rest ihr =>
      intro path res acc hb
      simp only [loadIncludes]
      by_cases hm : (dictGet fs.files (fs.resolve (fs.join path inc))).isNone = true
      · rw [if_pos hm]
        exact ihr path res _ hb
      · rw [if_neg hm]
        cases hc : loadConfigRec fs (fuel' + 1) (fs.resolve (fs.join path inc)) acc with
        | none => exact absurd hc (A _ _ hb)
        | some pair =>
          obtain ⟨cr, accc⟩ := pair
          have hmono := (load_invariants fs (fuel' + 1)).1 _ _ _ _ hc
          have hcount := unvisitedCount_mono fs acc.visited accc.visited hmono.1
          exact ihr path (mergeChild res cr) accc (by omega)

/-- Claim C8: on every include graph, cyclic ones included, the recursive
config loader terminates — a fuel budget of one more than the number of
unvisited files is never exhausted — each distinct resolved path is opened
and merged at most once (the loaded-files log stays duplicate-free), and a
path already in the visited set contributes nothing on a second encounter
(bare result, accumulators untouched). -/
theorem C8_loader_terminates (fs : ConfigFS) (fuel : ℕ) (path : String)
    (acc : LoadAcc)
    (hfuel : unvisitedCount fs acc.visited + 1 ≤ fuel)
    (hload : acc.loaded.Nodup)
    (hsync : ∀ p ∈ acc.loaded, p ∈ acc.visited) :
    loadConfigRec fs fuel path acc ≠ none ∧
    (∀ r acc', loadConfigRec fs fuel path acc = some (r, acc') →
      acc'.loaded.Nodup) ∧
    (acc.visited.contains (fs.resolve path) = true →
      loadConfigRec fs fuel path acc = some (none, acc)) := by
  refine ⟨(load_no_exhaustion fs fuel).1 path acc hfuel, ?_, ?_⟩
  · intro r acc' h
    obtain ⟨hv, new, hl, hn, hp⟩ := (load_invariants fs fuel).1 path acc r acc' h
    rw [hl, List.nodup_append]
    exact ⟨hload, hn, fun p hpl hpn => (hp p hpn).1 (hsync p hpl)⟩
  · intro hvis
    cases fuel with
    | zero => omega
    | succ f =>
      simp only [loadConfigRec]
      rw [if_pos hvis]

/-- A two-file filesystem whose include graph is the cycle a → b → a. -/
def cycleFS : ConfigFS :=
  { files := [("a", { includes := ["b"] }), ("b", { includes := ["a"] })]
    resolve := fun p => p
    join := fun _ c => c }

/-- Witness for C8: the loader finishes on the cyclic filesystem within the
computed budget, and a second encounter of a visited path is inert. -/
theorem C8_loader_terminates_witness :
    loadConfigRec cycleFS 3 "a" ⟨[], [], []⟩ ≠ none ∧
    loadConfigRec cycleFS 2 "a" ⟨["a"], ["a"], []⟩ = some (none, ⟨["a"], ["a"], []⟩) :=
  ⟨(C8_loader_terminates cycleFS 3 "a" ⟨[], [], []⟩ (by decide) (by decide) (by decide)).1,
   (C8_loader_terminates cycleFS 2 "a" ⟨["a"], ["a"], []⟩ (by decide) (by decide)
     (by decide)).2.2 (by decide)⟩

/-- Witness for C10: both regex dimensions evaluated on concrete configs. -/
theorem C10_regex_dimension_witness :
    matchesConfig litSearch C10window { name := "y", app_id := some "/fo" } =
      litSearch "fo" "foo" ∧
    matchesConfig litSearch C10window { name := "z", title := some "/nop" } =
      litSearch "nop" "nope" :=
  ⟨(C10_regex_dimension litSearch C10window { name := "y", app_id := some "/fo" }).1
      "/fo" rfl (by decide) (by decide),
   (C10_regex_dimension litSearch C10window { name := "z", title := some "/nop" }).2
      "/nop" rfl (by decide) (by decide) rfl⟩

end NiriTools
